import Mathlib

/-!
# Sugar: request dispatch, panic containment and status errors

A shallow embedding of the transport layer of `peanut-cc/sugar`:

* `transport/transport.go`, `transport/grpc/*.go`, `transport/http/*.go`;
* the test `errors/errors_test.go`.

Conventions of the embedding.

* A Go function body is a state transformer that either returns or panics
  (`Go σ α`); `σ` is whatever the callbacks can observe and change (for the
  HTTP transport it contains the `http.ResponseWriter`).
* `error` is `Option GoError`: `none` is the nil error.
* A Go string that ends up in an error, a status or its details is a `GoString`,
  a sequence of bytes that need not be valid UTF-8; a Lean string literal stands
  for its UTF-8 encoding. Names, header values, content types and trace marks
  are Lean strings. Go maps with string keys are association lists read with
  `List.lookup`.
* `int32` and `uint32` are `Int` and `Nat` with explicit reduction modulo `2^32`
  at the two conversions the code performs.
-/

set_option autoImplicit false

/-! ## Go values, panics and effects -/

/-- A Go `interface{}` value, as far as the transports inspect it. -/
inductive Value where
  | nil
  | str (s : String)
  | num (n : Int)
  deriving DecidableEq, Repr

/-- A Go string: a sequence of bytes, not necessarily valid UTF-8. -/
structure GoString where
  bytes : List Nat
  deriving DecidableEq, Repr

namespace utf8

/-- `utf8.EncodeRune`: the bytes of a character. -/
def EncodeRune (c : Char) : List Nat :=
  let n := c.toNat
  if n < 0x80 then [n]
  else if n < 0x800 then [0xC0 + n / 64, 0x80 + n % 64]
  else if n < 0x10000 then [0xE0 + n / 4096, 0x80 + n / 64 % 64, 0x80 + n % 64]
  else [0xF0 + n / 262144, 0x80 + n / 4096 % 64, 0x80 + n / 64 % 64, 0x80 + n % 64]

/-- A continuation byte. -/
def cont (b : Nat) : Bool := 0x80 ≤ b && b ≤ 0xBF

/-- `utf8.Valid`: whether the bytes are a sequence of well-formed encodings
(no stray or missing continuation bytes, no overlong forms, no surrogates,
nothing above U+10FFFF). -/
def Valid : List Nat → Bool
  | [] => true
  | b0 :: rest =>
    if b0 < 0x80 then Valid rest
    else
      match rest with
      | [] => false
      | b1 :: rest1 =>
        if 0xC2 ≤ b0 ∧ b0 ≤ 0xDF then
          (cont b1 && Valid rest1)
        else
          match rest1 with
          | [] => false
          | b2 :: rest2 =>
            if 0xE0 ≤ b0 ∧ b0 ≤ 0xEF then
              ((if b0 = 0xE0 then 0xA0 ≤ b1 && b1 ≤ 0xBF
                else if b0 = 0xED then 0x80 ≤ b1 && b1 ≤ 0x9F
                else cont b1) && cont b2 && Valid rest2)
            else
              match rest2 with
              | [] => false
              | b3 :: rest3 =>
                if 0xF0 ≤ b0 ∧ b0 ≤ 0xF4 then
                  ((if b0 = 0xF0 then 0x90 ≤ b1 && b1 ≤ 0xBF
                    else if b0 = 0xF4 then 0x80 ≤ b1 && b1 ≤ 0x8F
                    else cont b1) && cont b2 && cont b3 && Valid rest3)
                else false

end utf8

namespace GoString

/-- The Go string of a text: its UTF-8 encoding. -/
def ofString (s : String) : GoString := ⟨(s.data.map utf8.EncodeRune).flatten⟩

instance : Coe String GoString := ⟨ofString⟩

instance : Append GoString := ⟨fun a b => ⟨a.bytes ++ b.bytes⟩⟩

/-- Whether the string is valid UTF-8 (`utf8.ValidString`). -/
def Valid (s : GoString) : Bool := utf8.Valid s.bytes

/-- A rendering for traces: every byte as the character of that number, which
is the text itself for ASCII. -/
def display (s : GoString) : String := String.mk (s.bytes.map Char.ofNat)

end GoString

/-- The value a goroutine panics with. `recover()` yields it as it is, so it
yields nil after `panic(nil)`; `text` is the rendering under the `%v` verb. -/
inductive PanicVal where
  | nil
  | value (text : GoString)
  deriving DecidableEq, Repr

/-- The rendering of a panic value under `%v`. -/
def PanicVal.text : PanicVal → GoString
  | .nil => "<nil>"
  | .value text => text

/-- How the execution of a Go function body ends. -/
inductive Outcome (α : Type) where
  | ret (a : α)
  | panic (v : PanicVal)
  deriving DecidableEq, Repr

/-- A Go computation over the observable state `σ`: the state is threaded
through, and effects performed before a panic stay performed. -/
abbrev Go (σ α : Type) := σ → Outcome α × σ

/-- The panic of the Go runtime on a method call through a nil interface. -/
def nilDereference : PanicVal :=
  .value "runtime error: invalid memory address or nil pointer dereference"

/-! ## Package `errors` (declarations used by the transports) -/

namespace errors

/-- Modelled from the spec: the struct `StatusError` is declared in `errors.go`,
which is not among the sources. `Code` (an `int32`), `Reason` and `Message` are
the fields the transports read and write; `Metadata` is the string map of the
spec's data model. -/
structure StatusError where
  Code : Int
  Reason : GoString
  Message : GoString
  Metadata : List (GoString × GoString) := []
  deriving DecidableEq, Repr

/-- The values an `int32` field can hold. -/
def StatusError.inRange (se : StatusError) : Prop :=
  -(2 : Int) ^ 31 ≤ se.Code ∧ se.Code < (2 : Int) ^ 31

instance (se : StatusError) : Decidable se.inRange := by
  unfold StatusError.inRange; exact inferInstance

/-- Modelled from the spec: the constructor `errors.Unknown(reason, format, args...)`
of `errors.go` (not among the sources) returns a StatusError of the Unknown
family, whose fixed code is 2, with the given reason and the formatted message. -/
def Unknown (reason message : GoString) : StatusError :=
  { Code := 2, Reason := reason, Message := message }

/-- Modelled from the spec: `errors.DataLoss`, the constructor of the DataLoss
family (code 15 of the shared code space). -/
def DataLoss (reason message : GoString) : StatusError :=
  { Code := 15, Reason := reason, Message := message }

/-- Modelled from the spec: `errors.InvalidArgument`, the constructor of the
InvalidArgument family (code 3 of the shared code space). -/
def InvalidArgument (reason message : GoString) : StatusError :=
  { Code := 3, Reason := reason, Message := message }

end errors

/-! ## The gRPC status library, as used by `transport/grpc/default.go` -/

namespace codes

/-- The conversion `codes.Code(c)` of an `int32` to the `uint32` code type. -/
def ofInt32 (c : Int) : Nat := (c % (2 : Int) ^ 32).toNat

/-- The conversion `int32(c)` of a `uint32` code. -/
def toInt32 (c : Nat) : Int :=
  if c % 2 ^ 32 < 2 ^ 31 then ((c % 2 ^ 32 : Nat) : Int) else ((c % 2 ^ 32 : Nat) : Int) - (2 : Int) ^ 32

/-- The method `Code.String`. -/
def CodeString (c : Nat) : String :=
  match c with
  | 0 => "OK"
  | 1 => "Canceled"
  | 2 => "Unknown"
  | 3 => "InvalidArgument"
  | 4 => "DeadlineExceeded"
  | 5 => "NotFound"
  | 6 => "AlreadyExists"
  | 7 => "PermissionDenied"
  | 8 => "ResourceExhausted"
  | 9 => "FailedPrecondition"
  | 10 => "Aborted"
  | 11 => "OutOfRange"
  | 12 => "Unimplemented"
  | 13 => "Internal"
  | 14 => "Unavailable"
  | 15 => "DataLoss"
  | 16 => "Unauthenticated"
  | n => "Code(" ++ toString n ++ ")"

end codes

namespace errdetails

/-- The detail message `errdetails.ErrorInfo`. -/
structure ErrorInfo where
  Reason : GoString
  Domain : GoString := ""
  Metadata : List (GoString × GoString) := []
  deriving DecidableEq, Repr

/-- Marshalling an `ErrorInfo` (`ptypes.MarshalAny`) fails when one of its string
fields, or a key or a value of its map, is not valid UTF-8. -/
def ErrorInfo.marshals (d : ErrorInfo) : Bool :=
  d.Reason.Valid && d.Domain.Valid && d.Metadata.all (fun kv => kv.1.Valid && kv.2.Valid)

/-- The error with which marshalling such a message fails. Its text is that of
the protobuf runtime and plays no part in what is proved. -/
def invalidUTF8 : GoString := "string field contains invalid UTF-8"

end errdetails

namespace status

/-- One entry of `Status.Details()`: an `ErrorInfo`, or something else
(another message type, or the error of a detail that does not unmarshal). -/
inductive Detail where
  | errorInfo (d : errdetails.ErrorInfo)
  | other (typeURL : String)
  deriving DecidableEq, Repr

/-- A `*status.Status`: code, message and the attached details. -/
structure Status where
  Code : Nat
  Message : GoString
  Details : List Detail := []
  deriving DecidableEq, Repr

end status

/-- A non-nil Go `error` that is not a `*errors.StatusError`: the error of a
gRPC status (`Status.Err()`), or any other error, given by its `Error()` text. -/
inductive OtherError where
  | native (st : status.Status)
  | plain (text : GoString)
  deriving DecidableEq, Repr

/-- A non-nil Go `error`. -/
inductive GoError where
  | status (se : errors.StatusError)
  | other (e : OtherError)
  deriving DecidableEq, Repr

/-- The method `Error()` of an error that is not a StatusError. -/
def OtherError.Error : OtherError → GoString
  | .native st => "rpc error: code = " ++ codes.CodeString st.Code ++ " desc = " ++ st.Message
  | .plain text => text

namespace status

/-- `status.Newf(c, "%s: %s", reason, message)`. -/
def Newf (c : Nat) (reason message : GoString) : Status :=
  { Code := c, Message := reason ++ ": " ++ message, Details := [] }

/-- The error, if any, with which marshalling a detail fails. -/
def Detail.marshalError : Detail → Option GoError
  | .errorInfo d => if d.marshals then none else some (.other (.plain errdetails.invalidUTF8))
  | .other _ => none

/-- The loop of `Status.WithDetails` over the details: each one is marshalled
and appended, and the first marshalling error ends the loop. -/
def Status.appendDetails (s : Status) : List Detail → Except GoError Status
  | [] => .ok s
  | detail :: details =>
    match detail.marshalError with
    | some err => .error err
    | none => Status.appendDetails { s with Details := s.Details ++ [detail] } details

/-- `Status.WithDetails`: a status of code OK takes no details, and the first
detail that does not marshal gives its error. -/
def Status.WithDetails (s : Status) (details : List Detail) : Except GoError Status :=
  if s.Code = 0 then
    .error (.other (.plain "no error details for status with code OK"))
  else
    s.appendDetails details

/-- `Status.Err`: nil for the code OK. -/
def Status.Err (s : Status) : Option GoError :=
  if s.Code = 0 then none else some (.other (.native s))

/-- `status.Convert`, read through `Code()` and `Details()`: a nil error gives
the nil status, of code OK and without details. What it makes of a
`*errors.StatusError` depends on the method set of that type, declared in
`errors.go`, which is not among the sources: it is the parameter `ofStatusError`. -/
def Convert (ofStatusError : errors.StatusError → Status) : Option GoError → Status
  | none => { Code := 0, Message := "", Details := [] }
  | some (.status se) => ofStatusError se
  | some (.other (.native st)) => st
  | some (.other (.plain text)) => { Code := 2, Message := text, Details := [] }

end status

/-! ## Package `transport`: the context entries -/

namespace transport

/-- The struct `Transport`. -/
structure Transport where
  Kind : String
  deriving DecidableEq, Repr

end transport

namespace grpc

/-- Modelled from the spec: the struct `ServerInfo` of the gRPC transport
(declared in its `context.go`, not among the sources), built in
`UnaryInterceptor` from the served instance and the full method name. -/
structure ServerInfo where
  Server : Value
  FullMethod : String
  deriving DecidableEq, Repr

end grpc

/-- URL form values (`url.Values`). -/
abbrev Form := List (String × List String)

mutual
/-- One `context.WithValue` layer. The three keys of the repository are
unexported struct types, so each has its own constructor; `other` is a layer
put on by anyone else. -/
inductive CtxEntry where
  | transport (tr : transport.Transport)
  | grpcServer (info : grpc.ServerInfo)
  | httpServer (Request : HttpRequest) (Response : Nat)
  | other (key : String) (val : Value)
/-- An `*http.Request`: its context, parsed form, header and the outcome of
reading its body to the end. -/
inductive HttpRequest where
  | mk (ctx : List CtxEntry) (Form : Form) (Header : List (String × String))
      (Body : Except GoError (List Nat))
end

/-- A `context.Context`, the most recent layer first. -/
abbrev Context := List CtxEntry

namespace HttpRequest

/-- The method `Request.Context`. -/
def Context : HttpRequest → List CtxEntry
  | .mk c _ _ _ => c

/-- The field `Request.Form`. -/
def form : HttpRequest → Form
  | .mk _ f _ _ => f

/-- The field `Request.Header`. -/
def Header : HttpRequest → List (String × String)
  | .mk _ _ h _ => h

/-- The result of `ioutil.ReadAll(req.Body)`. -/
def Body : HttpRequest → Except GoError (List Nat)
  | .mk _ _ _ b => b

/-- The method `Request.WithContext`. -/
def WithContext (r : HttpRequest) (c : List CtxEntry) : HttpRequest :=
  match r with
  | .mk _ f h b => .mk c f h b

end HttpRequest

namespace transport

/-- `transport.NewContext`. -/
def NewContext (ctx : Context) (tr : Transport) : Context :=
  CtxEntry.transport tr :: ctx

/-- `transport.FromContext`: the value of the innermost layer under
`transportKey{}`, with whether there is one. -/
def FromContext : Context → Transport × Bool
  | [] => (⟨""⟩, false)
  | CtxEntry.transport tr :: _ => (tr, true)
  | _ :: rest => FromContext rest

end transport

namespace grpc

/-- Modelled from the spec: `NewContext` of the gRPC transport (its `context.go`
is not among the sources) attaches the server information to the context. -/
def NewContext (ctx : Context) (info : ServerInfo) : Context :=
  CtxEntry.grpcServer info :: ctx

end grpc

/-! ## Package `middleware` (types used by the servers) -/

namespace middleware

/-- The type `middleware.Handler`, `func(ctx, req) (interface{}, error)`; `ρ` is
the dynamic type of the request handed in (`interface{}` for gRPC, the
`*http.Request` for HTTP). -/
abbrev Handler (σ ρ : Type) := Context → ρ → Go σ (Value × Option GoError)

/-- The type `middleware.Middleware`, `func(Handler) Handler`. -/
abbrev Middleware (σ ρ : Type) := Handler σ ρ → Handler σ ρ

end middleware

/-! ## `transport/grpc/default.go` -/

namespace grpc

open errors status

/-- `DefaultErrorEncoder`. A nil `err` fails the type assertion and the call
`err.Error()` then panics. -/
def DefaultErrorEncoder (err : Option GoError) : Outcome (Option GoError) :=
  match err with
  | none => .panic nilDereference
  | some err =>
    let se : StatusError :=
      match err with
      | .status se => se
      | .other e => { Code := 2, Reason := "Unknown", Message := "Unknown: " ++ e.Error }
    let gs := Newf (codes.ofInt32 se.Code) se.Reason se.Message
    let details := [Detail.errorInfo { Reason := se.Reason, Metadata := [("message", se.Message)] }]
    match gs.WithDetails details with
    | .error err => .ret (some err)
    | .ok gs => .ret gs.Err

/-- The loop of `DefaultErrorDecoder` over `gs.Details()`: the first `ErrorInfo`
decides. -/
def DefaultErrorDecoder.scan (code : Nat) : List Detail → StatusError
  | [] => { Code := codes.toInt32 code, Reason := "", Message := "" }
  | .errorInfo d :: _ =>
    { Code := codes.toInt32 code, Reason := d.Reason,
      Message := (List.lookup ("message" : GoString) d.Metadata).getD "" }
  | .other _ :: rest => DefaultErrorDecoder.scan code rest

/-- `DefaultErrorDecoder`; it always returns a `*StatusError`. -/
def DefaultErrorDecoder (ofStatusError : StatusError → Status) (err : Option GoError) : GoError :=
  let gs := Convert ofStatusError err
  .status (DefaultErrorDecoder.scan gs.Code gs.Details)

/-- `DefaultRecoveryHandler`. The stack dump it prints goes to standard output,
which is not part of the state. The request may be of any type (`interface{}`). -/
def DefaultRecoveryHandler {ρ : Type} (_ctx : Context) (_req : ρ) (err : PanicVal) : Option GoError :=
  some (.status (Unknown "Unknown" ("panic triggered: " ++ err.text)))

/-! ## `transport/grpc/server.go` -/

/-- The type `ServerEncodeErrorFunc`. -/
abbrev ServerEncodeErrorFunc (σ : Type) := Option GoError → Go σ (Option GoError)

/-- The type `RecoveryHandlerFunc`. -/
abbrev RecoveryHandlerFunc (σ : Type) := Context → Value → PanicVal → Go σ (Option GoError)

/-- The struct `Server`. The map `serviceMiddleware` is its lookup function. -/
structure Server (σ : Type) where
  globalMiddleware : Option (middleware.Middleware σ Value)
  serviceMiddleware : Value → Option (middleware.Middleware σ Value)
  errorEncoder : ServerEncodeErrorFunc σ
  recoveryHandler : RecoveryHandlerFunc σ

/-- The type `ServerOption`. -/
abbrev ServerOption (σ : Type) := Server σ → Server σ

/-- `ServerErrorEncoder`. -/
def ServerErrorEncoder {σ : Type} (d : ServerEncodeErrorFunc σ) : ServerOption σ :=
  fun o => { o with errorEncoder := d }

/-- `ServerRecoveryHandler`. -/
def ServerRecoveryHandler {σ : Type} (h : RecoveryHandlerFunc σ) : ServerOption σ :=
  fun s => { s with recoveryHandler := h }

/-- `NewServer`. -/
def NewServer {σ : Type} (opts : List (ServerOption σ)) : Server σ :=
  opts.foldl (fun srv o => o srv)
    { errorEncoder := fun err w => (DefaultErrorEncoder err, w)
      recoveryHandler := fun ctx req err w => (.ret (DefaultRecoveryHandler ctx req err), w)
      serviceMiddleware := fun _ => none
      globalMiddleware := none }

/-- The struct `grpc.UnaryServerInfo` of the gRPC library. -/
structure UnaryServerInfo where
  Server : Value
  FullMethod : String
  deriving DecidableEq, Repr

/-- The type `grpc.UnaryHandler` of the gRPC library. -/
abbrev UnaryHandler (σ : Type) := Context → Value → Go σ (Value × Option GoError)

/-- The handler `h` that `UnaryInterceptor` builds before invoking it: the
terminal closure, wrapped by the middleware of the called service if one is
registered, then by the global middleware if it is set. -/
def Server.handler {σ : Type} (s : Server σ) (info : UnaryServerInfo)
    (handler : UnaryHandler σ) : middleware.Handler σ Value :=
  let h : middleware.Handler σ Value := fun ctx req => handler ctx req
  let h := match s.serviceMiddleware info.Server with
    | some m => m h
    | none => h
  match s.globalMiddleware with
  | some g => g h
  | none => h

/-- The deferred function of `UnaryInterceptor`, run when the body panicked
with `rerr` while the named results held `reply` and `err`. `recover()` ends the
panic; under the guard `rerr != nil` the function assigns the named result
`err`, and it leaves `reply` as it is. -/
def Server.recovered {σ : Type} (s : Server σ) (ctx : Context) (req reply : Value)
    (err : Option GoError) (rerr : PanicVal) : Go σ (Value × Option GoError) := fun w =>
  match rerr with
  | .nil => (.ret (reply, err), w)
  | .value _ =>
    match s.recoveryHandler ctx req rerr w with
    | (.panic v, w) => (.panic v, w)
    | (.ret e, w) =>
      match s.errorEncoder e w with
      | (.panic v, w) => (.panic v, w)
      | (.ret err, w) => (.ret (reply, err), w)

/-- The interceptor returned by `Server.UnaryInterceptor`. The variable `ctx`
the deferred function closes over is, at the time of any panic of `h`, the
context with both attachments. -/
def Server.UnaryInterceptor {σ : Type} (s : Server σ) (ctx : Context) (req : Value)
    (info : UnaryServerInfo) (handler : UnaryHandler σ) : Go σ (Value × Option GoError) := fun w =>
  let ctx := transport.NewContext ctx { Kind := "GRPC" }
  let ctx := NewContext ctx { Server := info.Server, FullMethod := info.FullMethod }
  let h := s.handler info handler
  match h ctx req w with
  | (.panic rerr, w) => s.recovered ctx req Value.nil none rerr w
  | (.ret (reply, none), w) => (.ret (reply, none), w)
  | (.ret (reply, some err), w) =>
    match s.errorEncoder (some err) w with
    | (.panic rerr, w) => s.recovered ctx req reply (some err) rerr w
    | (.ret e, w) => (.ret (Value.nil, e), w)

end grpc

/-! ## Package `encoding` and the codec helpers of the HTTP transport -/

namespace encoding

/-- The interface `encoding.Codec` (declared outside the sources), at the two
kinds of value the transports marshal: reply values and StatusErrors.
`Unmarshal` writes into its target and reports an error or nil. -/
structure Codec where
  Name : String
  Marshal : Value → Except GoError (List Nat)
  Unmarshal : List Nat → Value → Value × Option GoError
  MarshalStatus : errors.StatusError → Except GoError (List Nat)
  UnmarshalStatus : List Nat → errors.StatusError → errors.StatusError × Option GoError

end encoding

namespace http

open errors

/-- The declarations that `transport/http` and its sources use but that are not
among the sources: the codec registry lookup `encoding.GetCodec`, the helper
`contentSubtype`, the table `statusMapping`, the resolvers `RequestCodec` and
`ResponseCodec`, the function `StatusError` giving the HTTP status and the
StatusError of an error, the method `Error` of `*errors.StatusError`, and
`fmt.Sprintf` applied to a format without operands. -/
structure Env where
  GetCodec : String → Option encoding.Codec
  contentSubtype : String → String
  statusMapping : Int → Option Int
  RequestCodec : HttpRequest → Except GoError encoding.Codec
  ResponseCodec : HttpRequest → Except GoError (String × encoding.Codec)
  StatusError : Option GoError → Int × errors.StatusError
  statusErrorText : errors.StatusError → GoString
  Sprintf : GoString → GoString

/-- The method `Error()` of a non-nil error. -/
def Env.Error (env : Env) : GoError → GoString
  | .status se => env.statusErrorText se
  | .other e => e.Error

/-! ### `transport/http/context.go` -/

/-- The struct `ServerInfo`: the request and the handle of the response writer. -/
structure ServerInfo where
  Request : HttpRequest
  Response : Nat

/-- `NewContext` of the HTTP transport. -/
def NewContext (ctx : Context) (s : ServerInfo) : Context :=
  CtxEntry.httpServer s.Request s.Response :: ctx

/-- `FromContext` of the HTTP transport: the innermost layer under
`serverKey{}`, if there is one. -/
def FromContext : Context → Option ServerInfo
  | [] => none
  | CtxEntry.httpServer req res :: _ => some ⟨req, res⟩
  | _ :: rest => FromContext rest

/-! ### The response writer -/

/-- A call made on the `http.ResponseWriter`. Header keys are recorded as the
caller gives them. -/
inductive WriterCall where
  | headerSet (key value : String)
  | writeHeader (code : Int)
  | write (data : List Nat)
  deriving DecidableEq, Repr

/-- The `http.ResponseWriter` is an interface: its state is the sequence of calls
made on it, oldest first. -/
abbrev ResponseWriter := List WriterCall

/-- `res.Header().Set(key, value)`. -/
def ResponseWriter.HeaderSet (res : ResponseWriter) (key value : String) : ResponseWriter :=
  res ++ [.headerSet key value]

/-- `res.WriteHeader(code)`. -/
def ResponseWriter.WriteHeader (res : ResponseWriter) (code : Int) : ResponseWriter :=
  res ++ [.writeHeader code]

/-- `res.Write(data)`. -/
def ResponseWriter.Write (res : ResponseWriter) (data : List Nat) : ResponseWriter :=
  res ++ [.write data]

/-! ### `transport/http/default.go` -/

/-- `DefaultRequestDecoder`; `defer req.Body.Close()` has no effect on the state. -/
def DefaultRequestDecoder (env : Env) (target : Value) (req : HttpRequest) :
    Value × Option GoError :=
  match env.RequestCodec req with
  | .error err => (target, some err)
  | .ok codec =>
    match req.Body with
    | .error err => (target, some (.status (DataLoss "DataLoss" (env.Sprintf (env.Error err)))))
    | .ok data =>
      match codec.Unmarshal data target with
      | (target, some err) =>
        (target, some (.status (InvalidArgument "CodecUnmarshal" (env.Sprintf (env.Error err)))))
      | (target, none) => (target, none)

/-- `DefaultResponseEncoder`. -/
def DefaultResponseEncoder (env : Env) (out : Value) (req : HttpRequest) :
    Go ResponseWriter (Option GoError) := fun res =>
  match env.ResponseCodec req with
  | .error err => (.ret (some err), res)
  | .ok (contentType, codec) =>
    match codec.Marshal out with
    | .error err => (.ret (some err), res)
    | .ok data => (.ret none, (res.HeaderSet "content-type" contentType).Write data)

/-- `DefaultErrorEncoder`. -/
def DefaultErrorEncoder (env : Env) (err : Option GoError) (req : HttpRequest) :
    Go ResponseWriter Unit := fun res =>
  match env.StatusError err with
  | (code, se) =>
    match env.ResponseCodec req with
    | .error _ => (.ret (), res.WriteHeader 500)
    | .ok (contentType, codec) =>
      match codec.MarshalStatus se with
      | .error _ => (.ret (), res.WriteHeader 500)
      | .ok data =>
        (.ret (), ((res.HeaderSet "content-type" contentType).WriteHeader code).Write data)

/-- `DefaultRecoveryHandler` (the stack dump goes to standard output). -/
def DefaultRecoveryHandler {ρ : Type} (_ctx : Context) (_req : ρ) (err : PanicVal) : Option GoError :=
  some (.status (Unknown "Unknown" ("panic triggered: " ++ err.text)))

/-! ### `transport/http/server.go` -/

/-- The type `serverMethodHandler`. -/
abbrev serverMethodHandler (σ : Type) :=
  Value → Context → HttpRequest → Go σ (Value × Option GoError)

/-- The struct `MethodDesc`. -/
structure MethodDesc (σ : Type) where
  Path : String
  Method : String
  Handler : serverMethodHandler σ

/-- The struct `ServiceDesc` (its `HandlerType` and `Metadata` are not read). -/
structure ServiceDesc (σ : Type) where
  ServiceName : String
  Methods : List (MethodDesc σ)

/-- The type `ServerDecodeRequestFunc`: the target goes in and comes out. -/
abbrev ServerDecodeRequestFunc (σ : Type) := Value → HttpRequest → Go σ (Value × Option GoError)

/-- The type `ServerEncodeResponseFunc`; the response writer is in the state. -/
abbrev ServerEncodeResponseFunc (σ : Type) := Value → HttpRequest → Go σ (Option GoError)

/-- The type `ServerEncodeErrorFunc`; the response writer is in the state. -/
abbrev ServerEncodeErrorFunc (σ : Type) := Option GoError → HttpRequest → Go σ Unit

/-- The type `RecoveryHandlerFunc`; the route handler passes `req.Form`. -/
abbrev RecoveryHandlerFunc (σ : Type) := Context → Form → PanicVal → Go σ (Option GoError)

/-- A route of the router: one bound by `registerHandle` (the closure keeps the
service and the method descriptor and reads the server when it runs), or one
bound by `Handle` or `HandleFunc`. -/
inductive Route (σ : Type) where
  | method (srv : Value) (md : MethodDesc σ)
  | plain (path : String) (h : HttpRequest → Go σ Unit)

/-- The struct `Server`. -/
structure Server (σ : Type) where
  router : List (Route σ)
  requestDecoder : ServerDecodeRequestFunc σ
  responseEncoder : ServerEncodeResponseFunc σ
  errorEncoder : ServerEncodeErrorFunc σ
  recoveryHandler : RecoveryHandlerFunc σ
  globalMiddleware : Option (middleware.Middleware σ HttpRequest)
  serviceMiddleware : Value → Option (middleware.Middleware σ HttpRequest)

/-- The type `ServerOption`. -/
abbrev ServerOption (σ : Type) := Server σ → Server σ

/-- `ServerRequestDecoder`. -/
def ServerRequestDecoder {σ : Type} (fn : ServerEncodeErrorFunc σ) : ServerOption σ :=
  fun s => { s with errorEncoder := fn }

/-- `ServerResponseEncoder`. -/
def ServerResponseEncoder {σ : Type} (fn : ServerEncodeResponseFunc σ) : ServerOption σ :=
  fun s => { s with responseEncoder := fn }

/-- `ServerErrorEncoder`. -/
def ServerErrorEncoder {σ : Type} (fn : ServerEncodeErrorFunc σ) : ServerOption σ :=
  fun s => { s with errorEncoder := fn }

/-- `ServerRecoveryHandler`. -/
def ServerRecoveryHandler {σ : Type} (fn : RecoveryHandlerFunc σ) : ServerOption σ :=
  fun s => { s with recoveryHandler := fn }

/-- `NewServer`, with the default codecs taken from `env`. -/
def NewServer (env : Env) (opts : List (ServerOption ResponseWriter)) : Server ResponseWriter :=
  opts.foldl (fun srv o => o srv)
    { router := []
      requestDecoder := fun target req w => (.ret (DefaultRequestDecoder env target req), w)
      responseEncoder := DefaultResponseEncoder env
      errorEncoder := DefaultErrorEncoder env
      recoveryHandler := fun ctx req err w => (.ret (DefaultRecoveryHandler ctx req err), w)
      globalMiddleware := none
      serviceMiddleware := fun _ => none }

/-- A call the route handler makes on one of the server's function fields. -/
inductive Call where
  | recoveryHandler (ctx : Context) (req : Form) (err : PanicVal)
  | errorEncoder (err : Option GoError)
  | responseEncoder (reply : Value)

/-- One run of a route handler: how it ends, the state it leaves, and the calls
it made on the server's function fields, oldest first. -/
structure Run (σ : Type) where
  outcome : Outcome Unit
  state : σ
  calls : List Call

/-- The handler that the closure of `registerHandle` builds before invoking it:
the terminal closure over `md.Handler`, wrapped by the middleware of the service
if one is registered, then by the global middleware if it is set. -/
def Server.handler {σ : Type} (s : Server σ) (srv : Value) (md : MethodDesc σ)
    (req : HttpRequest) : middleware.Handler σ HttpRequest :=
  let handler : middleware.Handler σ HttpRequest := fun ctx _ => md.Handler srv ctx req
  let handler := match s.serviceMiddleware srv with
    | some m => m handler
    | none => handler
  match s.globalMiddleware with
  | some g => g handler
  | none => handler

/-- The deferred function of the route handler, run when the body panicked with
`rerr` after making the calls `calls`. `recover()` ends the panic; the recovery
handler and the error encoder are called under the guard `rerr != nil`. -/
def Server.recovered {σ : Type} (s : Server σ) (req : HttpRequest) (rerr : PanicVal)
    (calls : List Call) (w : σ) : Run σ :=
  match rerr with
  | .nil => ⟨.ret (), w, calls⟩
  | .value _ =>
    match s.recoveryHandler req.Context req.form rerr w with
    | (.panic v, w) => ⟨.panic v, w, calls ++ [.recoveryHandler req.Context req.form rerr]⟩
    | (.ret err, w) =>
      match s.errorEncoder err req w with
      | (o, w) => ⟨o, w, calls ++ [.recoveryHandler req.Context req.form rerr, .errorEncoder err]⟩

/-- The closure that `registerHandle` hands to the router for the service `srv`
and the method `md`. -/
def Server.routeHandler {σ : Type} (s : Server σ) (srv : Value) (md : MethodDesc σ)
    (req : HttpRequest) (w : σ) : Run σ :=
  let handler := s.handler srv md req
  match handler req.Context req w with
  | (.panic rerr, w) => s.recovered req rerr [] w
  | (.ret (_, some err), w) =>
    match s.errorEncoder (some err) req w with
    | (.panic rerr, w) => s.recovered req rerr [.errorEncoder (some err)] w
    | (.ret (), w) => ⟨.ret (), w, [.errorEncoder (some err)]⟩
  | (.ret (reply, none), w) =>
    match s.responseEncoder reply req w with
    | (.panic rerr, w) => s.recovered req rerr [.responseEncoder reply] w
    | (.ret none, w) => ⟨.ret (), w, [.responseEncoder reply]⟩
    | (.ret (some err), w) =>
      match s.errorEncoder (some err) req w with
      | (.panic rerr, w) =>
        s.recovered req rerr [.responseEncoder reply, .errorEncoder (some err)] w
      | (.ret (), w) => ⟨.ret (), w, [.responseEncoder reply, .errorEncoder (some err)]⟩

/-- `Server.registerHandle`: the route is added to the router. -/
def Server.registerHandle {σ : Type} (s : Server σ) (srv : Value) (md : MethodDesc σ) : Server σ :=
  { s with router := s.router ++ [.method srv md] }

/-- `Server.RegisterService`. -/
def Server.RegisterService {σ : Type} (s : Server σ) (sd : ServiceDesc σ) (ss : Value) : Server σ :=
  sd.Methods.foldl (fun s method => s.registerHandle ss method) s

/-- What the router runs for a route of the server. -/
def Server.serveRoute {σ : Type} (s : Server σ) (r : Route σ) (req : HttpRequest) (w : σ) : Run σ :=
  match r with
  | .method srv md => s.routeHandler srv md req w
  | .plain _ h => match h req w with
    | (o, w) => ⟨o, w, []⟩

end http

/-! ## `transport/grpc/client.go` -/

namespace grpc

/-- The type `grpc.UnaryInvoker` of the gRPC library. The reply pointer, the
connection and the call options are handed on unchanged by every function here;
what an invocation writes through the reply pointer is part of the state. -/
abbrev UnaryInvoker (σ : Type) := Context → String → Value → Go σ (Option GoError)

/-- The type `grpc.UnaryClientInterceptor` of the gRPC library. -/
abbrev UnaryClientInterceptor (σ : Type) :=
  Context → String → Value → UnaryInvoker σ → Go σ (Option GoError)

/-- The type `ClientDecodeErrorFunc`. -/
abbrev ClientDecodeErrorFunc (σ : Type) := Option GoError → Go σ (Option GoError)

/-- The struct `Client`; `timeout` is in nanoseconds. -/
structure Client (σ : Type) where
  ctx : Context
  insecure : Bool
  block : Bool
  timeout : Nat
  ints : List (UnaryClientInterceptor σ)
  errorDecoder : ClientDecodeErrorFunc σ
  recoveryHandler : RecoveryHandlerFunc σ

/-- The deferred function of `Client.unaryInterceptor`, run when the body
panicked with `rerr`; the named result `err` is still nil then. `recover()`
ends the panic, and under the guard `rerr != nil` the result becomes that of the
recovery handler. -/
def Client.recovered {σ : Type} (c : Client σ) (ctx : Context) (req : Value) (rerr : PanicVal) :
    Go σ (Option GoError) := fun w =>
  match rerr with
  | .nil => (.ret none, w)
  | .value _ => c.recoveryHandler ctx req rerr w

/-- The interceptor returned by `Client.unaryInterceptor`. -/
def Client.unaryInterceptor {σ : Type} (c : Client σ) : UnaryClientInterceptor σ :=
  fun ctx method req invoker w =>
    match invoker ctx method req w with
    | (.panic rerr, w) => c.recovered ctx req rerr w
    | (.ret none, w) => (.ret none, w)
    | (.ret (some err), w) =>
      match c.errorDecoder (some err) w with
      | (.panic rerr, w) => c.recovered ctx req rerr w
      | (.ret e, w) => (.ret e, w)

/-- The local function `chain` of `chainUnaryInterceptor`. -/
def Client.chain {σ : Type} (i : UnaryClientInterceptor σ) (invoker : UnaryInvoker σ) :
    UnaryInvoker σ :=
  fun ctx method req => i ctx method req invoker

/-- The loop `for i := len(ints) - 1; i >= 0; i--` of `chainUnaryInterceptor`,
with `n = i + 1` iterations left; the index is within the slice. -/
def Client.chainLoop {σ : Type} (ints : List (UnaryClientInterceptor σ)) :
    Nat → UnaryInvoker σ → UnaryInvoker σ
  | 0, next => next
  | n + 1, next =>
    match ints.get? n with
    | some i => Client.chainLoop ints n (Client.chain i next)
    | none => Client.chainLoop ints n next

/-- The interceptor returned by `Client.chainUnaryInterceptor`. -/
def Client.chainUnaryInterceptor {σ : Type} (c : Client σ) : UnaryClientInterceptor σ :=
  let ints := [c.unaryInterceptor] ++ c.ints
  fun ctx method req invoker =>
    let next := Client.chainLoop ints ints.length invoker
    next ctx method req

/-- The composition the specification describes, for comparison: the user
interceptors, first outermost, around the mandatory interceptor, which is
adjacent to the network invoker. -/
def Client.mandatoryInnermost {σ : Type} (c : Client σ) : UnaryClientInterceptor σ :=
  fun ctx method req invoker =>
    (c.ints.foldr Client.chain (Client.chain c.unaryInterceptor invoker)) ctx method req

end grpc

/-! ## `transport/http/client.go` -/

namespace http

open errors

/-- An `*http.Response`: the status code, the header with its keys in canonical
form, and the outcome of reading the body to the end. -/
structure Response where
  StatusCode : Int
  Header : List (String × String)
  Body : Except GoError (List Nat)

/-- `res.Header.Get("content-type")`: `Get` reads the entry under the canonical
form of the key, and gives the empty string when there is none. -/
def Response.contentType (res : Response) : String :=
  (res.Header.lookup "Content-Type").getD ""

/-- `CheckResponse`; `defer res.Body.Close()` has no effect on the result. -/
def CheckResponse (env : Env) (res : Response) : Option GoError :=
  if res.StatusCode ≥ 200 ∧ res.StatusCode ≤ 299 then
    none
  else
    match res.Body with
    | .error err => some err
    | .ok slurp =>
      let contentType := res.contentType
      match env.GetCodec (env.contentSubtype contentType) with
      | none => some (.status (Unknown "Unknown" ("unknown contentType: " ++ contentType)))
      | some codec =>
        let code := match env.statusMapping res.StatusCode with
          | some code => code
          | none => 2
        let se : StatusError := { Code := code, Reason := "", Message := "" }
        match codec.UnmarshalStatus slurp se with
        | (_, some err) => some err
        | (se, none) => some (.status se)

end http

/-! ## `errors/errors_test.go` -/

namespace errors

/-- Modelled from the spec: the method `Is` of `*StatusError` (`errors.go`, not
among the sources), by which two StatusErrors are the same error exactly when
their codes and their reasons are equal. -/
def StatusError.Is (a b : StatusError) : Bool :=
  a.Code == b.Code && a.Reason == b.Reason

/-- `errors.Is(err, target)` of the standard library, for two pointers to
StatusErrors: it is true when the two pointers are equal, which `same` tells, and
otherwise it is what `err.Is(target)` says. Modelled from the spec in that a
StatusError wraps no further error (no `Unwrap`). -/
def Is (same : Bool) (err target : StatusError) : Bool :=
  same || err.Is target

/-- Modelled from the spec: the function `Reason` (`errors.go`, not among the
sources) gives the reason of a StatusError and the empty string for any other
error. -/
def Reason : GoError → GoString
  | .status se => se.Reason
  | .other _ => ""

/-- `TestErrorsMatch`. The test calls `errors.Is` on two distinct pointers to
StatusErrors, which is decided by the method set of `*StatusError`, and `Reason`;
both are declared in `errors.go`, not among the sources, and are the parameters
`Is` and `Reason`. The result lists the checks that call `t.Errorf`, numbered in
the order of the source. Note that `s.Reason` is assigned twice and `st.Reason`
is left empty. -/
def TestErrorsMatch (Is : StatusError → StatusError → Bool) (Reason : GoError → GoString) :
    List Nat :=
  let s : StatusError := { Code := 1, Reason := "", Message := "" }
  let st : StatusError := { Code := 2, Reason := "", Message := "" }
  let f1 := if Is s st then [1] else []
  let s := { s with Code := 1 }
  let st := { st with Code := 1 }
  let f2 := if !Is s st then [2] else []
  let s := { s with Reason := "test_reason" }
  let s := { s with Reason := "test_reason" }
  let f3 := if !Is s st then [3] else []
  let f4 := if Reason (.status s) != "test_reason" then [4] else []
  f1 ++ f2 ++ f3 ++ f4

end errors

/-! ## Observers used to state the ordering properties -/

namespace middleware

/-- A middleware that appends a mark to the trace when it is entered and when
the wrapped handler has returned to it. -/
def mark {ρ : Type} (name : String) : Middleware (List String) ρ := fun next ctx req w =>
  match next ctx req (w ++ [name ++ " enter"]) with
  | (.ret r, w) => (.ret r, w ++ [name ++ " exit"])
  | (.panic v, w) => (.panic v, w)

/-- A middleware that panics with `v` as soon as it is entered. -/
def panicking {σ ρ : Type} (v : PanicVal) : Middleware σ ρ := fun _ _ _ w => (.panic v, w)

end middleware

namespace middleware

/-- The handler the specification describes, for comparison: the terminal
handler wrapped by the per-service middleware when there is one, and the result
wrapped by the global middleware when there is one. -/
def composed {σ ρ : Type} (global service : Option (Middleware σ ρ)) (terminal : Handler σ ρ) :
    Handler σ ρ :=
  match global, service with
  | some G, some S => G (S terminal)
  | some G, none => G terminal
  | none, some S => S terminal
  | none, none => terminal

end middleware

/-! ## Concrete servers on which the theorems are exercised -/

namespace sample

/-- A gRPC terminal handler that echoes the request and leaves a mark. -/
def terminal : grpc.UnaryHandler (List String) :=
  fun _ req w => (.ret (req, none), w ++ ["terminal"])

/-- A gRPC terminal handler that leaves a mark and panics. -/
def panickingTerminal (v : PanicVal) : grpc.UnaryHandler (List String) :=
  fun _ _ w => (.panic v, w ++ ["terminal"])

/-- A gRPC server with the default encoder and recovery handler and the given
global middleware and middleware of every service. -/
def grpcServer (g m : Option (middleware.Middleware (List String) Value)) :
    grpc.Server (List String) :=
  { grpc.NewServer [] with globalMiddleware := g, serviceMiddleware := fun _ => m }

/-- The information of a call to the method `/svc/Get` of the service `svc`. -/
def info : grpc.UnaryServerInfo := { Server := .str "svc", FullMethod := "/svc/Get" }

/-- An HTTP request without context layers, form, header or body. -/
def request : HttpRequest := .mk [] [] [] (.ok [])

/-- An HTTP method whose handler replies with a string and leaves a mark. -/
def method : http.MethodDesc (List String) :=
  { Path := "/get", Method := "GET",
    Handler := fun _ _ _ w => (.ret (.str "reply", none), w ++ ["terminal"]) }

/-- An HTTP method whose handler leaves a mark and panics. -/
def panickingMethod (v : PanicVal) : http.MethodDesc (List String) :=
  { Path := "/get", Method := "GET", Handler := fun _ _ _ w => (.panic v, w ++ ["terminal"]) }

/-- An HTTP server whose encoders leave a mark, with the default recovery
handler and the given global middleware and middleware of every service. -/
def httpServer (g m : Option (middleware.Middleware (List String) HttpRequest)) :
    http.Server (List String) :=
  { router := []
    requestDecoder := fun target _ w => (.ret (target, none), w)
    responseEncoder := fun _ _ w => (.ret none, w ++ ["response encoded"])
    errorEncoder := fun _ _ w => (.ret (), w ++ ["error encoded"])
    recoveryHandler := fun ctx req err w => (.ret (http.DefaultRecoveryHandler ctx req err), w)
    globalMiddleware := g
    serviceMiddleware := fun _ => m }

/-- A choice for what `status.Convert` makes of a `*errors.StatusError`: the
status of code Unknown that the library gives to an error without a
`GRPCStatus` method, with an empty text. -/
def ofStatusError : errors.StatusError → status.Status :=
  fun _ => { Code := 2, Message := "" }

/-- The text under which an observer records the error it received. -/
def describe : Option GoError → String
  | none => "nil"
  | some (.status _) => "a StatusError"
  | some (.other e) => e.Error.display

/-- A user interceptor that records the error its invoker returned to it. -/
def observer : grpc.UnaryClientInterceptor (List String) :=
  fun ctx method req invoker w =>
    match invoker ctx method req w with
    | (.ret e, w) => (.ret e, w ++ ["user interceptor saw: " ++ describe e])
    | (.panic v, w) => (.panic v, w)

/-- A network invocation that fails with the native status Unavailable. -/
def network : grpc.UnaryInvoker (List String) :=
  fun _ _ _ w =>
    (.ret (some (.other (.native { Code := 14, Message := "connection refused" }))),
      w ++ ["network invoked"])

/-- A client with the default error decoder and recovery handler and the given
user interceptors. -/
def client (ints : List (grpc.UnaryClientInterceptor (List String))) :
    grpc.Client (List String) :=
  { ctx := []
    insecure := false
    block := false
    timeout := 500000000
    ints := ints
    errorDecoder := fun err w => (.ret (some (grpc.DefaultErrorDecoder ofStatusError err)), w)
    recoveryHandler := fun ctx req err w => (.ret (grpc.DefaultRecoveryHandler ctx req err), w) }

/-- The characters of a byte sequence. -/
def textOf (data : List Nat) : String := String.mk (data.map Char.ofNat)

/-- The bytes of a text. -/
def bytesOf (text : String) : List Nat := text.data.map Char.toNat

/-- A codec with a fixed layout for StatusErrors: the code, the length of the
reason, the reason, the message. Like a JSON or protobuf body that carries the
field `code`, it writes the code it finds into the target. -/
def recordCodec : encoding.Codec :=
  { Name := "record"
    Marshal := fun v =>
      match v with
      | .str s => .ok (bytesOf s)
      | _ => .error (.other (.plain "record: unsupported value"))
    Unmarshal := fun data _ => (.str (textOf data), none)
    MarshalStatus := fun se =>
      .ok (se.Code.toNat :: se.Reason.bytes.length :: (se.Reason.bytes ++ se.Message.bytes))
    UnmarshalStatus := fun data se =>
      match data with
      | code :: n :: rest =>
        ({ se with Code := code, Reason := ⟨rest.take n⟩, Message := ⟨rest.drop n⟩ }, none)
      | _ => (se, some (.other (.plain "record: short input"))) }

/-- A codec whose bodies carry a message only: unmarshalling writes the message
and leaves the code and the reason of the target as they are. -/
def textCodec : encoding.Codec :=
  { Name := "text"
    Marshal := fun v =>
      match v with
      | .str s => .ok (bytesOf s)
      | _ => .error (.other (.plain "text: unsupported value"))
    Unmarshal := fun data _ => (.str (textOf data), none)
    MarshalStatus := fun se => .ok se.Message.bytes
    UnmarshalStatus := fun data se => ({ se with Message := ⟨data⟩ }, none) }

/-- The content type of a request, read from its header. -/
def requestContentType (req : HttpRequest) : String :=
  (req.Header.lookup "Content-Type").getD ""

/-- An environment with the two codecs above registered, a status table with
the entries 400, 404 and 503, and codec resolution by the content type. -/
def env : http.Env :=
  { GetCodec := fun name =>
      if name = "record" then some recordCodec
      else if name = "text" then some textCodec
      else none
    contentSubtype := fun contentType =>
      if contentType = "application/record" then "record"
      else if contentType = "application/text" then "text"
      else contentType
    statusMapping := fun status =>
      if status = 400 then some 3
      else if status = 404 then some 5
      else if status = 503 then some 14
      else none
    RequestCodec := fun req =>
      if requestContentType req = "application/record" then .ok recordCodec
      else if requestContentType req = "application/text" then .ok textCodec
      else .error (.status (errors.InvalidArgument "UnknownCodec" (requestContentType req)))
    ResponseCodec := fun req =>
      if requestContentType req = "application/record" then .ok ("application/record", recordCodec)
      else if requestContentType req = "application/text" then .ok ("application/text", textCodec)
      else .error (.status (errors.InvalidArgument "UnknownCodec" (requestContentType req)))
    StatusError := fun err =>
      match err with
      | some (.status se) =>
        (if se.Code = 3 then 400 else if se.Code = 5 then 404 else if se.Code = 14 then 503 else 500,
          se)
      | some (.other e) => (500, errors.Unknown "Unknown" e.Error)
      | none => (500, errors.Unknown "Unknown" "")
    statusErrorText := fun se => se.Reason ++ ": " ++ se.Message
    Sprintf := fun format => format }

/-- A request with the given content type. -/
def requestOf (contentType : String) : HttpRequest :=
  .mk [] [] [("Content-Type", contentType)] (.ok [])

/-- A codec that cannot marshal. -/
def brokenCodec : encoding.Codec :=
  { recordCodec with
    Name := "broken"
    Marshal := fun _ => .error (.other (.plain "broken: cannot marshal"))
    MarshalStatus := fun _ => .error (.other (.plain "broken: cannot marshal")) }

/-- The environment `env` with every response resolved to the codec that cannot
marshal. -/
def brokenEnv : http.Env :=
  { env with ResponseCodec := fun _ => .ok ("application/broken", brokenCodec) }

end sample

/-! ## `Server.ServeHTTP` and the router -/

namespace http

/-- The result of the router matching a request: the route, and the context
layers the router puts on the request under keys of its own (the route
variables and the matched route). -/
structure RouteMatch (σ : Type) where
  route : Route σ
  layers : List (String × Value)

/-- The router `*mux.Router`, an external collaborator: how it matches a request
against the registered routes, and what it does with a request that matches no
route. -/
structure Mux (σ : Type) where
  matchRoute : List (Route σ) → HttpRequest → Option (RouteMatch σ)
  notFound : HttpRequest → Go σ Unit

/-- The context of the request the router hands to the matched handler: the
router's own layers on top of the context the request came with. -/
def RouteMatch.context {σ : Type} (m : RouteMatch σ) (ctx : Context) : Context :=
  m.layers.map (fun kv => CtxEntry.other kv.1 kv.2) ++ ctx

/-- `Server.ServeHTTP`; `res` is the handle of the response writer, whose state
is in `σ`. -/
def Server.ServeHTTP {σ : Type} (mux : Mux σ) (s : Server σ) (res : Nat) (req : HttpRequest)
    (w : σ) : Run σ :=
  let ctx := transport.NewContext req.Context { Kind := "HTTP" }
  let ctx := NewContext ctx { Request := req, Response := res }
  let req := req.WithContext ctx
  match mux.matchRoute s.router req with
  | some m => s.serveRoute m.route (req.WithContext (m.context req.Context)) w
  | none =>
    match mux.notFound req w with
    | (o, w) => ⟨o, w, []⟩

end http

namespace middleware

/-- A middleware that records what it observes of the context it is called
with, and calls the wrapped handler with the same context and request. -/
def probe {ρ : Type} (obs : Context → String) : Middleware (List String) ρ :=
  fun next ctx req w => next ctx req (w ++ [obs ctx])

end middleware

namespace sample

/-- What a probe records: the transport kind of the context and whether one is
attached. -/
def kindOf (ctx : Context) : String :=
  (transport.FromContext ctx).1.Kind ++ (if (transport.FromContext ctx).2 then " present" else " absent")

/-- A router that hands every request to the first registered route, with one
layer of route variables. -/
def firstRoute : http.Mux (List String) :=
  { matchRoute := fun routes _ => routes.head?.map (fun r => { route := r, layers := [("vars", .nil)] })
    notFound := fun _ w => (.ret (), w ++ ["404"]) }

end sample

namespace sample

/-- A codec that refuses to unmarshal an empty input. -/
def strictCodec : encoding.Codec :=
  { recordCodec with
    Name := "strict"
    Unmarshal := fun data target =>
      match data with
      | [] => (target, some (.other (.plain "strict: empty input")))
      | _ => (.str (textOf data), none) }

/-- The environment `env` with every request resolved to the strict codec. -/
def strictEnv : http.Env :=
  { env with RequestCodec := fun _ => .ok strictCodec }

/-- A request with the given content type and outcome of reading the body. -/
def requestWith (contentType : String) (body : Except GoError (List Nat)) : HttpRequest :=
  .mk [] [] [("Content-Type", contentType)] body

end sample

namespace sample

/-- An error encoder, recognisable by the mark it leaves. -/
def markingEncoder : http.ServerEncodeErrorFunc (List String) :=
  fun _ _ w => (.ret (), w ++ ["fn called"])

end sample

namespace sample

/-- A Go string that is not valid UTF-8: the single byte 0xFF. -/
def invalidText : GoString := ⟨[0xFF]⟩

end sample

/-! ## Theorems -/

section go_strings

/-- Appending Go strings is associative. -/
theorem GoString.append_assoc (a b c : GoString) : a ++ b ++ c = a ++ (b ++ c) := by
  show GoString.mk ((a.bytes ++ b.bytes) ++ c.bytes) = GoString.mk (a.bytes ++ (b.bytes ++ c.bytes))
  rw [List.append_assoc]

/-- ASCII bytes in front do not change whether a byte sequence is valid UTF-8. -/
theorem utf8.Valid_ascii_append (p rest : List Nat) (hp : ∀ b ∈ p, b < 0x80) :
    utf8.Valid (p ++ rest) = utf8.Valid rest := by
  induction p with
  | nil => rfl
  | cons b p ih =>
    have hb : b < 0x80 := hp b (List.mem_cons_self b p)
    have ih' := ih (fun c hc => hp c (List.mem_cons_of_mem b hc))
    rw [List.cons_append, utf8.Valid.eq_def]
    simp only [hb, if_true]
    exact ih'

/-- An ASCII text in front does not change whether a Go string is valid UTF-8. -/
theorem GoString.Valid_append_of_ascii (p s : GoString) (hp : ∀ b ∈ p.bytes, b < 0x80) :
    (p ++ s).Valid = s.Valid :=
  utf8.Valid_ascii_append p.bytes s.bytes hp

/-- The detail that `DefaultErrorEncoder` attaches marshals when the reason and
the message are valid UTF-8. -/
theorem errdetails.ErrorInfo.marshals_of_valid (reason message : GoString)
    (hr : reason.Valid = true) (hm : message.Valid = true) :
    ({ Reason := reason, Metadata := [("message", message)] } : errdetails.ErrorInfo).marshals
      = true := by
  have h1 : GoString.Valid (GoString.ofString "") = true := by decide
  have h2 : GoString.Valid (GoString.ofString "message") = true := by decide
  simp [errdetails.ErrorInfo.marshals, hr, hm, h1, h2]

/-- The detail that `DefaultErrorEncoder` attaches does not marshal when the
message is not valid UTF-8. -/
theorem errdetails.ErrorInfo.marshals_of_invalid (reason message : GoString)
    (hm : message.Valid = false) :
    ({ Reason := reason, Metadata := [("message", message)] } : errdetails.ErrorInfo).marshals
      = false := by
  simp [errdetails.ErrorInfo.marshals, hm]

end go_strings

section dispatch

open middleware

/-- C1. The gRPC interceptor and the HTTP route handler invoke, with the context
and the request of the call, the terminal handler wrapped by the per-service
middleware, if one is registered for the called service, and that wrapped by
the global middleware, if one is set: `G (S terminal)`, `G terminal`,
`S terminal` or the terminal handler itself. What this handler returns decides
what they return: the gRPC interceptor returns its reply, or a nil reply with
its encoded error, and the HTTP route handler hands its reply to the response
encoder, or its error to the error encoder. With marking middlewares the global
one is entered first and left last, around the per-service one. -/
theorem dispatch_composition_order {σ : Type}
    (s : grpc.Server σ) (ctx : Context) (r : Value) (info : grpc.UnaryServerInfo)
    (handler : grpc.UnaryHandler σ)
    (t : http.Server σ) (srv : Value) (md : http.MethodDesc σ) (req : HttpRequest) (w : σ) :
    (∀ reply w1,
      composed s.globalMiddleware (s.serviceMiddleware info.Server) handler
          (grpc.NewContext (transport.NewContext ctx { Kind := "GRPC" })
            { Server := info.Server, FullMethod := info.FullMethod }) r w
        = (.ret (reply, none), w1) →
      s.UnaryInterceptor ctx r info handler w = (.ret (reply, none), w1)) ∧
    (∀ reply err w1 e w2,
      composed s.globalMiddleware (s.serviceMiddleware info.Server) handler
          (grpc.NewContext (transport.NewContext ctx { Kind := "GRPC" })
            { Server := info.Server, FullMethod := info.FullMethod }) r w
        = (.ret (reply, some err), w1) →
      s.errorEncoder (some err) w1 = (.ret e, w2) →
      s.UnaryInterceptor ctx r info handler w = (.ret (Value.nil, e), w2)) ∧
    (∀ G S reply w1, s.globalMiddleware = some G → s.serviceMiddleware info.Server = some S →
      G (S handler)
          (grpc.NewContext (transport.NewContext ctx { Kind := "GRPC" })
            { Server := info.Server, FullMethod := info.FullMethod }) r w
        = (.ret (reply, none), w1) →
      s.UnaryInterceptor ctx r info handler w = (.ret (reply, none), w1)) ∧
    (∀ reply w1 w2,
      composed t.globalMiddleware (t.serviceMiddleware srv) (fun c _ => md.Handler srv c req)
          req.Context req w = (.ret (reply, none), w1) →
      t.responseEncoder reply req w1 = (.ret none, w2) →
      t.routeHandler srv md req w = ⟨.ret (), w2, [.responseEncoder reply]⟩) ∧
    (∀ reply err w1 w2,
      composed t.globalMiddleware (t.serviceMiddleware srv) (fun c _ => md.Handler srv c req)
          req.Context req w = (.ret (reply, some err), w1) →
      t.errorEncoder (some err) req w1 = (.ret (), w2) →
      t.routeHandler srv md req w = ⟨.ret (), w2, [.errorEncoder (some err)]⟩) ∧
    (∀ G S reply w1 w2, t.globalMiddleware = some G → t.serviceMiddleware srv = some S →
      G (S (fun c _ => md.Handler srv c req)) req.Context req w = (.ret (reply, none), w1) →
      t.responseEncoder reply req w1 = (.ret none, w2) →
      t.routeHandler srv md req w = ⟨.ret (), w2, [.responseEncoder reply]⟩) ∧
    (∀ (s : grpc.Server (List String)) (handler : grpc.UnaryHandler (List String))
        (w w1 : List String) (reply : Value),
      s.globalMiddleware = some (mark "G") → s.serviceMiddleware info.Server = some (mark "S") →
      handler (grpc.NewContext (transport.NewContext ctx { Kind := "GRPC" })
          { Server := info.Server, FullMethod := info.FullMethod }) r
          (w ++ ["G enter", "S enter"]) = (.ret (reply, none), w1) →
      s.UnaryInterceptor ctx r info handler w = (.ret (reply, none), w1 ++ ["S exit", "G exit"])) ∧
    (∀ (t : http.Server (List String)) (md : http.MethodDesc (List String))
        (w w1 w2 : List String) (reply : Value),
      t.globalMiddleware = some (mark "G") → t.serviceMiddleware srv = some (mark "S") →
      md.Handler srv req.Context req (w ++ ["G enter", "S enter"]) = (.ret (reply, none), w1) →
      t.responseEncoder reply req (w1 ++ ["S exit", "G exit"]) = (.ret none, w2) →
      t.routeHandler srv md req w = ⟨.ret (), w2, [.responseEncoder reply]⟩) := by
  have hs : s.handler info handler =
      composed s.globalMiddleware (s.serviceMiddleware info.Server) handler := by
    unfold grpc.Server.handler composed
    cases s.globalMiddleware <;> cases s.serviceMiddleware info.Server <;> rfl
  have ht : t.handler srv md req =
      composed t.globalMiddleware (t.serviceMiddleware srv) (fun c _ => md.Handler srv c req) := by
    unfold http.Server.handler composed
    cases t.globalMiddleware <;> cases t.serviceMiddleware srv <;> rfl
  refine ⟨?_, ?_, ?_, ?_, ?_, ?_, ?_, ?_⟩
  · intro reply w1 h
    simp only [grpc.Server.UnaryInterceptor, hs, h]
  · intro reply err w1 e w2 h he
    simp only [grpc.Server.UnaryInterceptor, hs, h, he]
  · intro G S reply w1 hG hS h
    simp only [grpc.Server.UnaryInterceptor, hs, hG, hS, composed, h]
  · intro reply w1 w2 h he
    simp only [http.Server.routeHandler, ht, h, he]
  · intro reply err w1 w2 h he
    simp only [http.Server.routeHandler, ht, h, he]
  · intro G S reply w1 w2 hG hS h he
    simp only [http.Server.routeHandler, ht, hG, hS, composed, h, he]
  · intro s handler w w1 reply hG hS h
    simp [grpc.Server.UnaryInterceptor, grpc.Server.handler, hG, hS, mark, h]
  · intro t md w w1 w2 reply hG hS h he
    simp [http.Server.routeHandler, http.Server.handler, hG, hS, mark, h, he]

end dispatch

section dispatch_witness

open middleware sample

/-- C1 at concrete servers, run through the interceptor and through the route
handler: with `G` global and `S` per service the trace of a call is G, S,
terminal, S, G; with only one of them registered, or none, the trace shows that
one around the terminal handler, or the terminal handler alone. -/
theorem dispatch_composition_order_witness :
    (grpcServer (some (mark "G")) (some (mark "S"))).UnaryInterceptor [] (.str "q") info terminal []
      = (.ret (.str "q", none), ["G enter", "S enter", "terminal", "S exit", "G exit"]) ∧
    (httpServer (some (mark "G")) (some (mark "S"))).routeHandler (.str "svc") method request []
      = ⟨.ret (), ["G enter", "S enter", "terminal", "S exit", "G exit", "response encoded"],
          [.responseEncoder (.str "reply")]⟩ ∧
    (grpcServer (some (mark "G")) none).UnaryInterceptor [] (.str "q") info terminal []
      = (.ret (.str "q", none), ["G enter", "terminal", "G exit"]) ∧
    (grpcServer none (some (mark "S"))).UnaryInterceptor [] (.str "q") info terminal []
      = (.ret (.str "q", none), ["S enter", "terminal", "S exit"]) ∧
    (grpcServer none none).UnaryInterceptor [] (.str "q") info terminal []
      = (.ret (.str "q", none), ["terminal"]) ∧
    (httpServer none (some (mark "S"))).routeHandler (.str "svc") method request []
      = ⟨.ret (), ["S enter", "terminal", "S exit", "response encoded"],
          [.responseEncoder (.str "reply")]⟩ :=
  ⟨(dispatch_composition_order (grpcServer (some (mark "G")) (some (mark "S"))) [] (.str "q")
      info terminal (httpServer (some (mark "G")) (some (mark "S"))) (.str "svc") method request
      []).2.2.2.2.2.2.1 _ terminal [] _ _ rfl rfl rfl,
   (dispatch_composition_order (grpcServer (some (mark "G")) (some (mark "S"))) [] (.str "q")
      info terminal (httpServer (some (mark "G")) (some (mark "S"))) (.str "svc") method request
      []).2.2.2.2.2.2.2 _ method [] _ _ _ rfl rfl rfl rfl,
   (dispatch_composition_order (grpcServer (some (mark "G")) none) [] (.str "q")
      info terminal (httpServer none none) (.str "svc") method request []).1 _ _ rfl,
   (dispatch_composition_order (grpcServer none (some (mark "S"))) [] (.str "q")
      info terminal (httpServer none none) (.str "svc") method request []).1 _ _ rfl,
   (dispatch_composition_order (grpcServer none none) [] (.str "q")
      info terminal (httpServer none none) (.str "svc") method request []).1 _ _ rfl,
   (dispatch_composition_order (grpcServer none none) [] (.str "q")
      info terminal (httpServer none (some (mark "S"))) (.str "svc") method request
      []).2.2.2.1 _ _ _ rfl rfl⟩

end dispatch_witness

section containment

open middleware sample

/-- C2, as stated, fails for the panic value nil: `recover()` yields nil, the
guard `rerr != nil` keeps the deferred function from calling the recovery
handler and the error encoder, and the interceptor returns a nil reply and a nil
error. With the default recovery handler and encoder it also fails for a panic
value whose text is not valid UTF-8: the detail does not marshal and the error
returned is that of the marshalling, not a native status. -/
theorem grpc_interceptor_nil_panic :
    (grpcServer none none).UnaryInterceptor [] (.str "q") info (panickingTerminal .nil) []
      = (.ret (Value.nil, none), ["terminal"]) ∧
    (grpcServer none none).UnaryInterceptor [] (.str "q") info
        (panickingTerminal (.value invalidText)) []
      = (.ret (Value.nil, some (.other (.plain errdetails.invalidUTF8))), ["terminal"]) := by
  constructor <;> rfl

/-- C2, amended. When the composed gRPC handler (global middleware, per-service
middleware and terminal handler) panics with a value that is not nil, and the
recovery handler and the error encoder return, the interceptor returns: the
reply is nil and the error is what the error encoder returns on the result of
the recovery handler, called with the context carrying both attachments, the
request and the panic value. With the default recovery handler and error
encoder and a panic value whose text is valid UTF-8 the error is a native status
of code 2 whose single detail has the reason "Unknown". When the panic value is
nil the interceptor returns a nil reply and a nil error. -/
theorem grpc_interceptor_contains_panic {σ : Type} (s : grpc.Server σ) (ctx : Context)
    (req : Value) (info : grpc.UnaryServerInfo) (handler : grpc.UnaryHandler σ)
    (w w1 : σ) (v : PanicVal)
    (hp : s.handler info handler
        (grpc.NewContext (transport.NewContext ctx { Kind := "GRPC" })
          { Server := info.Server, FullMethod := info.FullMethod }) req w = (.panic v, w1)) :
    (v ≠ .nil → ∀ (e err : Option GoError) (w2 w3 : σ),
        s.recoveryHandler
          (grpc.NewContext (transport.NewContext ctx { Kind := "GRPC" })
            { Server := info.Server, FullMethod := info.FullMethod }) req v w1 = (.ret e, w2) →
        s.errorEncoder e w2 = (.ret err, w3) →
        s.UnaryInterceptor ctx req info handler w = (.ret (Value.nil, err), w3)) ∧
    (v ≠ .nil → v.text.Valid = true →
      s.recoveryHandler = (grpc.NewServer []).recoveryHandler →
      s.errorEncoder = (grpc.NewServer []).errorEncoder →
        s.UnaryInterceptor ctx req info handler w =
          (.ret (Value.nil, some (.other (.native
            { Code := 2
              Message := "Unknown: panic triggered: " ++ v.text
              Details := [.errorInfo
                { Reason := "Unknown"
                  Metadata := [("message", "panic triggered: " ++ v.text)] }] }))), w1)) ∧
    (v = .nil → s.UnaryInterceptor ctx req info handler w = (.ret (Value.nil, none), w1)) := by
  refine ⟨?_, ?_, ?_⟩
  · intro hv e err w2 w3 hr he
    cases v with
    | nil => exact absurd rfl hv
    | value text =>
      simp [grpc.Server.UnaryInterceptor, hp, grpc.Server.recovered, hr, he]
  · intro hv hvalid hr he
    cases v with
    | nil => exact absurd rfl hv
    | value text =>
      have hm : (GoString.ofString "panic triggered: " ++ text).Valid = true := by
        rw [GoString.Valid_append_of_ascii _ _ (by decide)]
        exact hvalid
      have hu : GoString.Valid (GoString.ofString "Unknown") = true := by decide
      have hd := errdetails.ErrorInfo.marshals_of_valid _ _ hu hm
      have ha : (GoString.ofString "Unknown" ++ GoString.ofString ": " ++
            (GoString.ofString "panic triggered: " ++ text)) =
          GoString.ofString "Unknown: panic triggered: " ++ text := by
        rw [← GoString.append_assoc]
        rfl
      simp [grpc.Server.UnaryInterceptor, hp, grpc.Server.recovered, hr, he, grpc.NewServer,
        grpc.DefaultRecoveryHandler, grpc.DefaultErrorEncoder, errors.Unknown, status.Newf,
        status.Status.WithDetails, status.Status.appendDetails, status.Detail.marshalError,
        status.Status.Err, codes.ofInt32, PanicVal.text, hd, ha]
  · intro hv
    subst hv
    simp [grpc.Server.UnaryInterceptor, hp, grpc.Server.recovered]

end containment

section containment_witness

open middleware sample

/-- C2, amended, at concrete servers: a global middleware panicking with "boom",
a terminal handler panicking with "boom" under two marking middlewares, and a
terminal handler panicking with nil. -/
theorem grpc_interceptor_contains_panic_witness :
    (grpcServer (some (panicking (.value "boom"))) none).UnaryInterceptor [] (.str "q") info
        terminal []
      = (.ret (Value.nil, some (.other (.native
          { Code := 2
            Message := "Unknown: panic triggered: boom"
            Details := [.errorInfo
              { Reason := "Unknown", Metadata := [("message", "panic triggered: boom")] }] }))),
         []) ∧
    (grpcServer (some (mark "G")) (some (mark "S"))).UnaryInterceptor [] (.str "q") info
        (panickingTerminal (.value "boom")) []
      = (.ret (Value.nil, some (.other (.native
          { Code := 2
            Message := "Unknown: panic triggered: boom"
            Details := [.errorInfo
              { Reason := "Unknown", Metadata := [("message", "panic triggered: boom")] }] }))),
         ["G enter", "S enter", "terminal"]) ∧
    (grpcServer none none).UnaryInterceptor [] (.str "q") info (panickingTerminal .nil) []
      = (.ret (Value.nil, none), ["terminal"]) :=
  ⟨(grpc_interceptor_contains_panic (grpcServer (some (panicking (.value "boom"))) none) []
      (.str "q") info terminal [] [] (.value "boom") rfl).2.1 (by decide) (by decide) rfl rfl,
   (grpc_interceptor_contains_panic (grpcServer (some (mark "G")) (some (mark "S"))) []
      (.str "q") info (panickingTerminal (.value "boom")) [] ["G enter", "S enter", "terminal"]
      (.value "boom") rfl).1 (by decide) _ _ _ _ rfl rfl,
   (grpc_interceptor_contains_panic (grpcServer none none) []
      (.str "q") info (panickingTerminal .nil) [] ["terminal"] .nil rfl).2.2 rfl⟩

end containment_witness

section http_containment

open middleware sample

/-- Registering a route changes the router only: route handlers run as before. -/
theorem http.Server.routeHandler_registerHandle {σ : Type} (s : http.Server σ) (srv : Value)
    (md : http.MethodDesc σ) :
    (s.registerHandle srv md).routeHandler = s.routeHandler := rfl

/-- Registering a service changes the router only: route handlers run as before. -/
theorem http.Server.routeHandler_RegisterService {σ : Type} (sd : http.ServiceDesc σ) (ss : Value)
    (s : http.Server σ) : (s.RegisterService sd ss).routeHandler = s.routeHandler := by
  unfold http.Server.RegisterService
  generalize sd.Methods = ms
  induction ms generalizing s with
  | nil => rfl
  | cons m ms ih => simp only [List.foldl_cons]; rw [ih]; rfl

/-- The routes present before a registration are kept. -/
theorem http.Server.router_RegisterService_mono {σ : Type} (ms : List (http.MethodDesc σ))
    (ss : Value) (s : http.Server σ) (r : http.Route σ) (hr : r ∈ s.router) :
    r ∈ (ms.foldl (fun s method => s.registerHandle ss method) s).router := by
  induction ms generalizing s with
  | nil => exact hr
  | cons m ms ih =>
    simp only [List.foldl_cons]
    apply ih
    simp [http.Server.registerHandle, hr]

/-- Every method of a registered service has its route in the router. -/
theorem http.Server.router_RegisterService {σ : Type} (sd : http.ServiceDesc σ) (ss : Value)
    (s : http.Server σ) (md : http.MethodDesc σ) (hmd : md ∈ sd.Methods) :
    http.Route.method ss md ∈ (s.RegisterService sd ss).router := by
  unfold http.Server.RegisterService
  generalize sd.Methods = ms at hmd
  induction ms generalizing s with
  | nil => simp at hmd
  | cons m ms ih =>
    simp only [List.foldl_cons]
    rcases List.mem_cons.mp hmd with h | h
    · subst h
      apply http.Server.router_RegisterService_mono
      simp [http.Server.registerHandle]
    · exact ih _ h

/-- C3, as stated, fails for the panic value nil: `recover()` yields nil, the
guard `rerr != nil` fails, and the route handler returns having called neither
the recovery handler nor the error encoder, so no error response is produced. -/
theorem http_route_nil_panic :
    ((httpServer (some (mark "G")) (some (mark "S"))).RegisterService
        { ServiceName := "svc", Methods := [panickingMethod .nil] } (.str "svc")).serveRoute
        (.method (.str "svc") (panickingMethod .nil)) request []
      = ⟨.ret (), ["G enter", "S enter", "terminal"], []⟩ := by
  rfl

/-- C3, amended. When the composed handler of an HTTP route registered through
`RegisterService` panics with a value that is not nil, and the recovery handler
and the error encoder return, the route handler returns normally; the calls it
makes on the server's function fields are the recovery handler, with the
request's context, its form and the panic value, and then the error encoder,
once, with the error the recovery handler returned; the response encoder is not
called. With the default recovery handler that error is the Unknown StatusError
of code 2 and reason "Unknown". When the panic value is nil the route handler
returns without calling any of them. -/
theorem http_route_contains_panic {σ : Type} (s : http.Server σ) (sd : http.ServiceDesc σ)
    (ss : Value) (md : http.MethodDesc σ) (req : HttpRequest) (w w1 : σ) (v : PanicVal)
    (hmd : md ∈ sd.Methods)
    (hp : s.handler ss md req req.Context req w = (.panic v, w1)) :
    http.Route.method ss md ∈ (s.RegisterService sd ss).router ∧
    (v ≠ .nil → ∀ (e : Option GoError) (w2 w3 : σ),
        s.recoveryHandler req.Context req.form v w1 = (.ret e, w2) →
        s.errorEncoder e req w2 = (.ret (), w3) →
        (s.RegisterService sd ss).serveRoute (.method ss md) req w =
          ⟨.ret (), w3, [.recoveryHandler req.Context req.form v, .errorEncoder e]⟩) ∧
    (v ≠ .nil → ∀ (w3 : σ),
        s.recoveryHandler =
          (fun ctx form err w => (.ret (http.DefaultRecoveryHandler ctx form err), w)) →
        s.errorEncoder (some (.status
            { Code := 2, Reason := "Unknown", Message := "panic triggered: " ++ v.text }))
          req w1 = (.ret (), w3) →
        (s.RegisterService sd ss).serveRoute (.method ss md) req w =
          ⟨.ret (), w3,
            [.recoveryHandler req.Context req.form v,
             .errorEncoder (some (.status
               { Code := 2, Reason := "Unknown", Message := "panic triggered: " ++ v.text }))]⟩) ∧
    (v = .nil →
        (s.RegisterService sd ss).serveRoute (.method ss md) req w = ⟨.ret (), w1, []⟩) := by
  refine ⟨http.Server.router_RegisterService sd ss s md hmd, ?_, ?_, ?_⟩
  · intro hv e w2 w3 hr he
    simp only [http.Server.serveRoute]
    rw [http.Server.routeHandler_RegisterService]
    cases v with
    | nil => exact absurd rfl hv
    | value text => simp [http.Server.routeHandler, hp, http.Server.recovered, hr, he]
  · intro hv w3 hr he
    simp only [http.Server.serveRoute]
    rw [http.Server.routeHandler_RegisterService]
    cases v with
    | nil => exact absurd rfl hv
    | value text =>
      simp [http.Server.routeHandler, hp, http.Server.recovered, hr,
        http.DefaultRecoveryHandler, errors.Unknown, PanicVal.text] at he ⊢
      simp [he]
  · intro hv
    subst hv
    simp only [http.Server.serveRoute]
    rw [http.Server.routeHandler_RegisterService]
    simp [http.Server.routeHandler, hp, http.Server.recovered]

/-- C3, amended, at a concrete server: a terminal handler panicking with "boom"
under two marking middlewares; the state shows one error response and no
response encoding. -/
theorem http_route_contains_panic_witness :
    ((httpServer (some (mark "G")) (some (mark "S"))).RegisterService
        { ServiceName := "svc", Methods := [panickingMethod (.value "boom")] }
        (.str "svc")).serveRoute
        (.method (.str "svc") (panickingMethod (.value "boom"))) request []
      = ⟨.ret (), ["G enter", "S enter", "terminal", "error encoded"],
          [.recoveryHandler [] [] (.value "boom"),
           .errorEncoder (some (.status
             { Code := 2, Reason := "Unknown", Message := "panic triggered: boom" }))]⟩ ∧
    ((httpServer none none).RegisterService
        { ServiceName := "svc", Methods := [panickingMethod .nil] } (.str "svc")).serveRoute
        (.method (.str "svc") (panickingMethod .nil)) request []
      = ⟨.ret (), ["terminal"], []⟩ :=
  ⟨(http_route_contains_panic (httpServer (some (mark "G")) (some (mark "S")))
      { ServiceName := "svc", Methods := [panickingMethod (.value "boom")] } (.str "svc")
      (panickingMethod (.value "boom")) request [] ["G enter", "S enter", "terminal"]
      (.value "boom") (List.mem_singleton.mpr rfl) rfl).2.2.1 (by decide) _ rfl rfl,
   (http_route_contains_panic (httpServer none none)
      { ServiceName := "svc", Methods := [panickingMethod .nil] } (.str "svc")
      (panickingMethod .nil) request [] ["terminal"] .nil
      (List.mem_singleton.mpr rfl) rfl).2.2.2 rfl⟩

end http_containment

section grpc_wire

open errors status

/-- A code in the `int32` range that is not 0 is not 0 as a `uint32`. -/
theorem codes.ofInt32_ne_zero (c : Int) (hlo : -(2 : Int) ^ 31 ≤ c) (hhi : c < (2 : Int) ^ 31)
    (hc : c ≠ 0) : codes.ofInt32 c ≠ 0 := by
  unfold codes.ofInt32
  norm_num at hlo hhi ⊢
  omega

/-- Converting an `int32` to `uint32` and back gives the same number. -/
theorem codes.toInt32_ofInt32 (c : Int) (hlo : -(2 : Int) ^ 31 ≤ c) (hhi : c < (2 : Int) ^ 31) :
    codes.toInt32 (codes.ofInt32 c) = c := by
  unfold codes.toInt32 codes.ofInt32
  norm_num at hlo hhi ⊢
  split <;> omega

/-- A code that is not negative is unchanged by the conversion to `uint32`. -/
theorem codes.ofInt32_of_nonneg (c : Int) (h0 : 0 ≤ c) (hhi : c < (2 : Int) ^ 31) :
    (codes.ofInt32 c : Int) = c := by
  unfold codes.ofInt32
  norm_num at hhi ⊢
  omega

/-- What `DefaultErrorEncoder` returns for a StatusError whose code is not 0 and
whose reason and message are valid UTF-8. -/
theorem grpc.DefaultErrorEncoder_status (se : StatusError) (hr : se.inRange) (hc : se.Code ≠ 0)
    (hvr : se.Reason.Valid = true) (hvm : se.Message.Valid = true) :
    grpc.DefaultErrorEncoder (some (.status se)) =
      .ret (some (.other (.native
        { Code := codes.ofInt32 se.Code
          Message := se.Reason ++ ": " ++ se.Message
          Details := [.errorInfo
            { Reason := se.Reason, Metadata := [("message", se.Message)] }] }))) := by
  have h := codes.ofInt32_ne_zero se.Code hr.1 hr.2 hc
  have hd := errdetails.ErrorInfo.marshals_of_valid _ _ hvr hvm
  simp [grpc.DefaultErrorEncoder, Newf, Status.WithDetails, Status.appendDetails,
    Detail.marshalError, Status.Err, h, hd]

/-- What `DefaultErrorEncoder` returns for a StatusError whose code is not 0 and
whose message is not valid UTF-8: the error of marshalling the detail. -/
theorem grpc.DefaultErrorEncoder_status_invalid (se : StatusError) (hr : se.inRange)
    (hc : se.Code ≠ 0) (hvm : se.Message.Valid = false) :
    grpc.DefaultErrorEncoder (some (.status se)) =
      .ret (some (.other (.plain errdetails.invalidUTF8))) := by
  have h := codes.ofInt32_ne_zero se.Code hr.1 hr.2 hc
  have hd := errdetails.ErrorInfo.marshals_of_invalid se.Reason se.Message hvm
  simp [grpc.DefaultErrorEncoder, Newf, Status.WithDetails, Status.appendDetails,
    Detail.marshalError, h, hd]

end grpc_wire

section grpc_roundtrip

open errors status sample

/-- C4, as stated, fails at the code 0: the status library attaches no details
to a status of code OK, the encoder returns that refusal as a plain error, and
decoding it gives code 2 with empty reason and message. It also fails for a
message that is not valid UTF-8: the detail does not marshal, the encoder
returns the marshalling error, and decoding it gives code 2 with empty reason
and message. -/
theorem grpc_roundtrip_fails_at_code_zero :
    grpc.DefaultErrorEncoder (some (.status { Code := 0, Reason := "R", Message := "M" })) =
      .ret (some (.other (.plain "no error details for status with code OK"))) ∧
    grpc.DefaultErrorDecoder ofStatusError
        (some (.other (.plain "no error details for status with code OK"))) =
      .status { Code := 2, Reason := "", Message := "" } ∧
    grpc.DefaultErrorEncoder
        (some (.status { Code := 5, Reason := "R", Message := invalidText })) =
      .ret (some (.other (.plain errdetails.invalidUTF8))) ∧
    grpc.DefaultErrorDecoder ofStatusError (some (.other (.plain errdetails.invalidUTF8))) =
      .status { Code := 2, Reason := "", Message := "" } := by
  refine ⟨?_, ?_, ?_, ?_⟩ <;> rfl

/-- C4, amended. For every StatusError whose code is not 0 and whose reason and
message are valid UTF-8, the gRPC `DefaultErrorEncoder` returns an error, and
`DefaultErrorDecoder` turns that error into a StatusError with the same code,
the same reason and the same message. -/
theorem grpc_error_roundtrip (f : StatusError → Status) (se : StatusError)
    (hr : se.inRange) (hc : se.Code ≠ 0)
    (hvr : se.Reason.Valid = true) (hvm : se.Message.Valid = true) :
    ∃ e, grpc.DefaultErrorEncoder (some (.status se)) = .ret (some e) ∧
      grpc.DefaultErrorDecoder f (some e) =
        .status { Code := se.Code, Reason := se.Reason, Message := se.Message } := by
  refine ⟨_, grpc.DefaultErrorEncoder_status se hr hc hvr hvm, ?_⟩
  simp [grpc.DefaultErrorDecoder, Convert, grpc.DefaultErrorDecoder.scan,
    codes.toInt32_ofInt32 se.Code hr.1 hr.2, List.lookup]

/-- C4, amended, at a NotFound error and at an error with a negative code. -/
theorem grpc_error_roundtrip_witness :
    (∃ e, grpc.DefaultErrorEncoder
        (some (.status { Code := 5, Reason := "USER_NOT_FOUND", Message := "no such user" })) =
          .ret (some e) ∧
      grpc.DefaultErrorDecoder ofStatusError (some e) =
        .status { Code := 5, Reason := "USER_NOT_FOUND", Message := "no such user" }) ∧
    (∃ e, grpc.DefaultErrorEncoder
        (some (.status { Code := -1, Reason := "R", Message := "M" })) = .ret (some e) ∧
      grpc.DefaultErrorDecoder ofStatusError (some e) =
        .status { Code := -1, Reason := "R", Message := "M" }) :=
  ⟨grpc_error_roundtrip ofStatusError
      { Code := 5, Reason := "USER_NOT_FOUND", Message := "no such user" }
      (by decide) (by decide) (by decide) (by decide),
   grpc_error_roundtrip ofStatusError { Code := -1, Reason := "R", Message := "M" }
      (by decide) (by decide) (by decide) (by decide)⟩

end grpc_roundtrip

section grpc_encoder

open errors status sample

/-- C7, as stated, fails for a StatusError of code 0, for which the encoder
returns a plain error and no native status; for one of negative code, whose
native code is the code reduced modulo `2^32`; and for an error whose text, or a
StatusError whose message, is not valid UTF-8, for which the encoder returns the
error of marshalling the detail and no native status. -/
theorem grpc_encoder_status_code_not_kept :
    grpc.DefaultErrorEncoder (some (.status { Code := 0, Reason := "R", Message := "M" })) =
      .ret (some (.other (.plain "no error details for status with code OK"))) ∧
    grpc.DefaultErrorEncoder (some (.status { Code := -1, Reason := "R", Message := "M" })) =
      .ret (some (.other (.native
        { Code := 4294967295
          Message := "R: M"
          Details := [.errorInfo { Reason := "R", Metadata := [("message", "M")] }] }))) ∧
    grpc.DefaultErrorEncoder (some (.other (.plain invalidText))) =
      .ret (some (.other (.plain errdetails.invalidUTF8))) ∧
    grpc.DefaultErrorEncoder
        (some (.status { Code := 5, Reason := "R", Message := invalidText })) =
      .ret (some (.other (.plain errdetails.invalidUTF8))) := by
  refine ⟨?_, ?_, ?_, ?_⟩ <;> rfl

/-- C7, amended. For an error that is not a StatusError and whose text is valid
UTF-8 the gRPC `DefaultErrorEncoder` returns a native status error of code 2
with exactly one detail, of reason "Unknown" and with "Unknown: " followed by
the error's text under the key "message". For a StatusError whose code is not 0
and whose reason and message are valid UTF-8 it returns a native status error
with exactly one detail, carrying the reason and, under the key "message", the
message; its native code is the conversion of the code to `uint32`, which
converts back to the code and is the code itself when that is not negative. -/
theorem grpc_encoder_result (e : OtherError) (se : StatusError)
    (he : e.Error.Valid = true)
    (hr : se.inRange) (hc : se.Code ≠ 0)
    (hvr : se.Reason.Valid = true) (hvm : se.Message.Valid = true) :
    grpc.DefaultErrorEncoder (some (.other e)) =
      .ret (some (.other (.native
        { Code := 2
          Message := "Unknown: " ++ ("Unknown: " ++ e.Error)
          Details := [.errorInfo
            { Reason := "Unknown", Metadata := [("message", "Unknown: " ++ e.Error)] }] }))) ∧
    grpc.DefaultErrorEncoder (some (.status se)) =
      .ret (some (.other (.native
        { Code := codes.ofInt32 se.Code
          Message := se.Reason ++ ": " ++ se.Message
          Details := [.errorInfo
            { Reason := se.Reason, Metadata := [("message", se.Message)] }] }))) ∧
    codes.toInt32 (codes.ofInt32 se.Code) = se.Code ∧
    (0 ≤ se.Code → (codes.ofInt32 se.Code : Int) = se.Code) := by
  refine ⟨?_, grpc.DefaultErrorEncoder_status se hr hc hvr hvm,
    codes.toInt32_ofInt32 se.Code hr.1 hr.2, fun h => codes.ofInt32_of_nonneg se.Code h hr.2⟩
  have hm : (GoString.ofString "Unknown: " ++ e.Error).Valid = true := by
    rw [GoString.Valid_append_of_ascii _ _ (by decide)]
    exact he
  have hu : GoString.Valid (GoString.ofString "Unknown") = true := by decide
  have hd := errdetails.ErrorInfo.marshals_of_valid _ _ hu hm
  have ha : (GoString.ofString "Unknown" ++ GoString.ofString ": " ++
        (GoString.ofString "Unknown: " ++ e.Error)) =
      GoString.ofString "Unknown: " ++ (GoString.ofString "Unknown: " ++ e.Error) := rfl
  simp [grpc.DefaultErrorEncoder, Newf, Status.WithDetails, Status.appendDetails,
    Detail.marshalError, Status.Err, codes.ofInt32, hd, ha]

/-- C7, amended, at the plain error "disk full" and at a NotFound StatusError. -/
theorem grpc_encoder_result_witness :
    grpc.DefaultErrorEncoder (some (.other (.plain "disk full"))) =
      .ret (some (.other (.native
        { Code := 2
          Message := "Unknown: Unknown: disk full"
          Details := [.errorInfo
            { Reason := "Unknown", Metadata := [("message", "Unknown: disk full")] }] }))) ∧
    grpc.DefaultErrorEncoder
        (some (.status { Code := 5, Reason := "USER_NOT_FOUND", Message := "no such user" })) =
      .ret (some (.other (.native
        { Code := 5
          Message := "USER_NOT_FOUND: no such user"
          Details := [.errorInfo
            { Reason := "USER_NOT_FOUND", Metadata := [("message", "no such user")] }] }))) :=
  ⟨(grpc_encoder_result (.plain "disk full")
      { Code := 5, Reason := "USER_NOT_FOUND", Message := "no such user" }
      (by decide) (by decide) (by decide) (by decide) (by decide)).1,
   (grpc_encoder_result (.plain "disk full")
      { Code := 5, Reason := "USER_NOT_FOUND", Message := "no such user" }
      (by decide) (by decide) (by decide) (by decide) (by decide)).2.1⟩

end grpc_encoder

section status_match

open errors sample

/-- C5. Two StatusErrors match exactly when their codes are equal and their
reasons are equal: the method `Is` says so, `errors.Is` says so for two pointers
(equal pointers point to one StatusError), the messages and the metadata play no
part, and two StatusErrors with equal codes and different reasons do not
match. -/
theorem status_errors_match_iff (a b : StatusError) :
    (a.Is b = true ↔ a.Code = b.Code ∧ a.Reason = b.Reason) ∧
    (∀ same : Bool, (same = true → a = b) →
      (errors.Is same a b = true ↔ a.Code = b.Code ∧ a.Reason = b.Reason)) ∧
    (∀ (m m' : GoString) (md md' : List (GoString × GoString)),
      StatusError.Is { a with Message := m, Metadata := md }
        { b with Message := m', Metadata := md' } = a.Is b) ∧
    (a.Code = b.Code → a.Reason ≠ b.Reason → a.Is b = false) := by
  have h : a.Is b = true ↔ a.Code = b.Code ∧ a.Reason = b.Reason := by
    simp [StatusError.Is]
  refine ⟨h, ?_, fun _ _ _ _ => rfl, ?_⟩
  · intro same hs
    cases same with
    | false => simpa [errors.Is] using h
    | true =>
      have hab := hs rfl
      subst hab
      simp [errors.Is]
  · intro _ hr
    cases hi : a.Is b with
    | false => rfl
    | true => exact absurd (h.mp hi).2 hr

/-- C5 at the StatusErrors of the repository's test and at two that differ in
message and metadata only. -/
theorem status_errors_match_iff_witness :
    StatusError.Is { Code := 1, Reason := "test_reason", Message := "" }
      { Code := 1, Reason := "", Message := "" } = false ∧
    (errors.Is true { Code := 1, Reason := "R", Message := "" }
      { Code := 1, Reason := "R", Message := "" } = true ↔ (1 : Int) = 1 ∧ ("R" : GoString) = "R") ∧
    StatusError.Is { Code := 5, Reason := "R", Message := "one", Metadata := [("k", "v")] }
      { Code := 5, Reason := "R", Message := "two" } = true :=
  ⟨(status_errors_match_iff { Code := 1, Reason := "test_reason", Message := "" }
      { Code := 1, Reason := "", Message := "" }).2.2.2 rfl (by decide),
   (status_errors_match_iff { Code := 1, Reason := "R", Message := "" }
      { Code := 1, Reason := "R", Message := "" }).2.1 true (fun _ => rfl),
   ((status_errors_match_iff { Code := 5, Reason := "R", Message := "one", Metadata := [("k", "v")] }
      { Code := 5, Reason := "R", Message := "two" }).1).mpr ⟨rfl, rfl⟩⟩

/-- The repository's test run on the matcher of the specification: its first,
second and fourth checks pass and its third check reports an error, because the
test sets `s.Reason` twice and leaves `st.Reason` empty. -/
theorem errors.TestErrorsMatch_spec_matcher :
    TestErrorsMatch StatusError.Is Reason = [3] := by
  decide

end status_match

section client_chain

open sample

/-- The loop of `chainUnaryInterceptor` over the first `n` interceptors wraps
them, first outermost, around the invoker it starts from. -/
theorem grpc.Client.chainLoop_take {σ : Type} (ints : List (grpc.UnaryClientInterceptor σ))
    (n : Nat) (hn : n ≤ ints.length) (next : grpc.UnaryInvoker σ) :
    grpc.Client.chainLoop ints n next = (ints.take n).foldr grpc.Client.chain next := by
  induction n generalizing next with
  | zero => simp [grpc.Client.chainLoop]
  | succ n ih =>
    have hlt : n < ints.length := hn
    have hget : ints.get? n = some (ints.get ⟨n, hlt⟩) := List.get?_eq_get hlt
    simp only [grpc.Client.chainLoop, hget]
    rw [ih (Nat.le_of_lt hlt)]
    have : ints.take (n + 1) = ints.take n ++ [ints.get ⟨n, hlt⟩] := by
      rw [List.take_succ, List.getElem?_eq_getElem hlt]; rfl
    rw [this, List.foldr_append]
    rfl

/-- C6, as stated, fails with one user interceptor: in the chain the code builds
that interceptor is the one adjacent to the network and it sees the native
error as the network returned it; it would see the decoded StatusError if the
mandatory interceptor were innermost. -/
theorem client_chain_mandatory_not_innermost :
    (client [observer]).chainUnaryInterceptor [] "/svc/Get" (.str "q") network [] =
      (.ret (some (.status { Code := 14, Reason := "", Message := "" })),
        ["network invoked",
         "user interceptor saw: rpc error: code = Unavailable desc = connection refused"]) ∧
    (client [observer]).mandatoryInnermost [] "/svc/Get" (.str "q") network [] =
      (.ret (some (.status { Code := 14, Reason := "", Message := "" })),
        ["network invoked", "user interceptor saw: a StatusError"]) := by
  constructor <;> rfl

/-- C6, amended. The interceptor built by `chainUnaryInterceptor` is the
mandatory recovery and error-decoding interceptor, outermost, and the invoker
handed to it is the chain of the user interceptors, in their order with the
first outermost, around the real network invoker: the last user interceptor is
adjacent to the network invocation, and with no user interceptors the mandatory
one is. -/
theorem client_chain_mandatory_outermost {σ : Type} (c : grpc.Client σ) (ctx : Context)
    (method : String) (req : Value) (invoker : grpc.UnaryInvoker σ) :
    c.chainUnaryInterceptor ctx method req invoker =
      c.unaryInterceptor ctx method req (c.ints.foldr grpc.Client.chain invoker) ∧
    (c.ints = [] →
      c.chainUnaryInterceptor ctx method req invoker =
        c.unaryInterceptor ctx method req invoker) := by
  have h : c.chainUnaryInterceptor ctx method req invoker =
      c.unaryInterceptor ctx method req (c.ints.foldr grpc.Client.chain invoker) := by
    simp only [grpc.Client.chainUnaryInterceptor]
    rw [grpc.Client.chainLoop_take _ _ (Nat.le_refl _), List.take_length]
    rfl
  refine ⟨h, fun he => ?_⟩
  rw [h, he]
  rfl

/-- C6, amended, at the client without user interceptors and with one. -/
theorem client_chain_mandatory_outermost_witness :
    (client []).chainUnaryInterceptor [] "/svc/Get" (.str "q") network [] =
      (client []).unaryInterceptor [] "/svc/Get" (.str "q") network [] ∧
    (client [observer]).chainUnaryInterceptor [] "/svc/Get" (.str "q") network [] =
      (client [observer]).unaryInterceptor [] "/svc/Get" (.str "q")
        (grpc.Client.chain observer network) [] :=
  ⟨congrFun ((client_chain_mandatory_outermost (client []) [] "/svc/Get" (.str "q")
      network).2 rfl) [],
   congrFun (client_chain_mandatory_outermost (client [observer]) [] "/svc/Get" (.str "q")
      network).1 []⟩

end client_chain

section check_response

open errors sample

/-- C8, as stated, fails when the body carries a code: for the status 404, whose
table entry is 5, and a body carrying the code 3, the reason "X" and the
message "Y", `CheckResponse` returns the StatusError of code 3. -/
theorem check_response_code_from_body :
    env.statusMapping 404 = some 5 ∧
    http.CheckResponse env
      { StatusCode := 404, Header := [("Content-Type", "application/record")],
        Body := .ok [3, 1, 88, 89] } =
      some (.status { Code := 3, Reason := "X", Message := "Y" }) := by
  constructor <;> rfl

/-- C8, amended. For a response whose status is outside 200-299, whose content
type resolves to a registered codec and whose body that codec unmarshals
without error, `CheckResponse` returns the StatusError that the codec leaves
when it unmarshals the body into a StatusError holding only the status-mapping
table's entry for the response status, or 2 when the status has no entry: the
reason and the message are the ones the codec reads from the body, and the code
is the table's entry, or 2, whenever the codec leaves the code as it finds it. -/
theorem check_response_decodes_body (env : http.Env) (res : http.Response) (slurp : List Nat)
    (codec : encoding.Codec) (se : StatusError)
    (hs : ¬ (res.StatusCode ≥ 200 ∧ res.StatusCode ≤ 299))
    (hb : res.Body = .ok slurp)
    (hc : env.GetCodec (env.contentSubtype res.contentType) = some codec)
    (hu : codec.UnmarshalStatus slurp
      { Code := (env.statusMapping res.StatusCode).getD 2, Reason := "", Message := "" } =
        (se, none)) :
    http.CheckResponse env res = some (.status se) ∧
    ((∀ data target, (codec.UnmarshalStatus data target).1.Code = target.Code) →
      se.Code = (env.statusMapping res.StatusCode).getD 2) := by
  constructor
  · cases hm : env.statusMapping res.StatusCode with
    | none =>
      rw [hm] at hu
      simp only [Option.getD_none] at hu
      simp [http.CheckResponse, hs, hb, hc, hm, hu]
    | some code =>
      rw [hm] at hu
      simp only [Option.getD_some] at hu
      simp [http.CheckResponse, hs, hb, hc, hm, hu]
  · intro hkeep
    have h := hkeep slurp
      { Code := (env.statusMapping res.StatusCode).getD 2, Reason := "", Message := "" }
    rw [hu] at h
    exact h

/-- C8, amended, at a body with a message only under the statuses 404 (table
entry 5) and 418 (no entry), and at a body that carries a code. -/
theorem check_response_decodes_body_witness :
    http.CheckResponse env
      { StatusCode := 404, Header := [("Content-Type", "application/text")],
        Body := .ok [89] } =
      some (.status { Code := 5, Reason := "", Message := "Y" }) ∧
    http.CheckResponse env
      { StatusCode := 418, Header := [("Content-Type", "application/text")],
        Body := .ok [89] } =
      some (.status { Code := 2, Reason := "", Message := "Y" }) ∧
    http.CheckResponse env
      { StatusCode := 404, Header := [("Content-Type", "application/record")],
        Body := .ok [3, 1, 88, 89] } =
      some (.status { Code := 3, Reason := "X", Message := "Y" }) ∧
    (5 : Int) = (env.statusMapping 404).getD 2 :=
  ⟨(check_response_decodes_body env
      { StatusCode := 404, Header := [("Content-Type", "application/text")], Body := .ok [89] }
      [89] textCodec { Code := 5, Reason := "", Message := "Y" }
      (by decide) rfl rfl rfl).1,
   (check_response_decodes_body env
      { StatusCode := 418, Header := [("Content-Type", "application/text")], Body := .ok [89] }
      [89] textCodec { Code := 2, Reason := "", Message := "Y" }
      (by decide) rfl rfl rfl).1,
   (check_response_decodes_body env
      { StatusCode := 404, Header := [("Content-Type", "application/record")],
        Body := .ok [3, 1, 88, 89] }
      [3, 1, 88, 89] recordCodec { Code := 3, Reason := "X", Message := "Y" }
      (by decide) rfl rfl rfl).1,
   (check_response_decodes_body env
      { StatusCode := 404, Header := [("Content-Type", "application/text")], Body := .ok [89] }
      [89] textCodec { Code := 5, Reason := "", Message := "Y" }
      (by decide) rfl rfl rfl).2 (fun _ _ => rfl)⟩

/-- `CheckResponse` returns nil exactly for the statuses 200 to 299, whatever
the header and the body are. -/
theorem http.CheckResponse_eq_none_iff (env : http.Env) (res : http.Response) :
    http.CheckResponse env res = none ↔ (res.StatusCode ≥ 200 ∧ res.StatusCode ≤ 299) := by
  constructor
  · intro h
    by_contra hs
    simp only [http.CheckResponse, hs, if_false] at h
    split at h
    · simp at h
    · split at h
      · simp at h
      · split at h <;> simp at h
  · intro hs
    simp [http.CheckResponse, hs]

/-- C9 at its failing inputs: for the status 500, `CheckResponse` returns the
error of the codec when the body does not unmarshal, and the error of the read
when the body cannot be read; neither is a StatusError. -/
theorem check_response_returns_raw_errors :
    http.CheckResponse env
      { StatusCode := 500, Header := [("Content-Type", "application/record")],
        Body := .ok [] } =
      some (.other (.plain "record: short input")) ∧
    http.CheckResponse env
      { StatusCode := 500, Header := [("Content-Type", "application/record")],
        Body := .error (.other (.plain "unexpected EOF")) } =
      some (.other (.plain "unexpected EOF")) := by
  constructor <;> rfl

end check_response

section http_error_encoder

open errors sample

/-- C10. When the response codec does not resolve, or marshalling the
StatusError fails, the HTTP `DefaultErrorEncoder` makes one call on the response
writer, `WriteHeader(500)`: no header is set and no body written. Otherwise it
sets the header `content-type` to the negotiated content type, then writes the
status resolved from the error, then writes the marshalled StatusError. -/
theorem http_error_encoder_writes (env : http.Env) (err : Option GoError) (req : HttpRequest)
    (res : http.ResponseWriter) :
    (∀ e, env.ResponseCodec req = .error e →
      http.DefaultErrorEncoder env err req res = (.ret (), res ++ [.writeHeader 500])) ∧
    (∀ contentType codec e, env.ResponseCodec req = .ok (contentType, codec) →
      codec.MarshalStatus (env.StatusError err).2 = .error e →
      http.DefaultErrorEncoder env err req res = (.ret (), res ++ [.writeHeader 500])) ∧
    (∀ contentType codec data, env.ResponseCodec req = .ok (contentType, codec) →
      codec.MarshalStatus (env.StatusError err).2 = .ok data →
      http.DefaultErrorEncoder env err req res =
        (.ret (), res ++ [.headerSet "content-type" contentType,
          .writeHeader (env.StatusError err).1, .write data])) := by
  refine ⟨?_, ?_, ?_⟩
  · intro e h
    simp [http.DefaultErrorEncoder, h, http.ResponseWriter.WriteHeader]
  · intro contentType codec e h hm
    simp [http.DefaultErrorEncoder, h, hm, http.ResponseWriter.WriteHeader]
  · intro contentType codec data h hm
    simp [http.DefaultErrorEncoder, h, hm, http.ResponseWriter.WriteHeader,
      http.ResponseWriter.HeaderSet, http.ResponseWriter.Write]

/-- C10 at a request whose content type has no codec, at a codec that cannot
marshal, and at a NotFound error under a codec that marshals it. -/
theorem http_error_encoder_writes_witness :
    http.DefaultErrorEncoder env
        (some (.status { Code := 5, Reason := "X", Message := "Y" })) (requestOf "image/png") [] =
      (.ret (), [.writeHeader 500]) ∧
    http.DefaultErrorEncoder brokenEnv
        (some (.status { Code := 5, Reason := "X", Message := "Y" }))
        (requestOf "application/record") [] =
      (.ret (), [.writeHeader 500]) ∧
    http.DefaultErrorEncoder env
        (some (.status { Code := 5, Reason := "X", Message := "Y" }))
        (requestOf "application/record") [] =
      (.ret (), [.headerSet "content-type" "application/record", .writeHeader 404,
        .write [5, 1, 88, 89]]) :=
  ⟨(http_error_encoder_writes env (some (.status { Code := 5, Reason := "X", Message := "Y" }))
      (requestOf "image/png") []).1 _ rfl,
   (http_error_encoder_writes brokenEnv
      (some (.status { Code := 5, Reason := "X", Message := "Y" }))
      (requestOf "application/record") []).2.1 _ _ _ rfl rfl,
   (http_error_encoder_writes env (some (.status { Code := 5, Reason := "X", Message := "Y" }))
      (requestOf "application/record") []).2.2 _ _ _ rfl rfl⟩

end http_error_encoder

section http_request_decoder

open errors sample

/-- C11. The HTTP `DefaultRequestDecoder` returns nil exactly when the request
codec resolves, the body is read and the codec unmarshals it. When the codec
does not resolve it returns the resolution error, whatever reading the body
would give; when reading the body fails it returns a DataLoss StatusError with
reason "DataLoss"; when unmarshalling fails it returns an InvalidArgument
StatusError with reason "CodecUnmarshal". -/
theorem http_request_decoder_outcomes (env : http.Env) (target : Value) (req : HttpRequest) :
    ((http.DefaultRequestDecoder env target req).2 = none ↔
      ∃ codec data target', env.RequestCodec req = .ok codec ∧ req.Body = .ok data ∧
        codec.Unmarshal data target = (target', none)) ∧
    (∀ e, env.RequestCodec req = .error e →
      http.DefaultRequestDecoder env target req = (target, some e)) ∧
    (∀ codec e, env.RequestCodec req = .ok codec → req.Body = .error e →
      http.DefaultRequestDecoder env target req =
        (target, some (.status (DataLoss "DataLoss" (env.Sprintf (env.Error e))))) ∧
      (DataLoss "DataLoss" (env.Sprintf (env.Error e))).Reason = "DataLoss" ∧
      (DataLoss "DataLoss" (env.Sprintf (env.Error e))).Code = 15) ∧
    (∀ codec data target' e, env.RequestCodec req = .ok codec → req.Body = .ok data →
      codec.Unmarshal data target = (target', some e) →
      http.DefaultRequestDecoder env target req =
        (target', some (.status (InvalidArgument "CodecUnmarshal" (env.Sprintf (env.Error e))))) ∧
      (InvalidArgument "CodecUnmarshal" (env.Sprintf (env.Error e))).Reason = "CodecUnmarshal" ∧
      (InvalidArgument "CodecUnmarshal" (env.Sprintf (env.Error e))).Code = 3) := by
  refine ⟨?_, ?_, ?_, ?_⟩
  · constructor
    · intro h
      unfold http.DefaultRequestDecoder at h
      cases hc : env.RequestCodec req with
      | error e => simp [hc] at h
      | ok codec =>
        cases hb : req.Body with
        | error e => simp [hc, hb] at h
        | ok data =>
          rcases hu : codec.Unmarshal data target with ⟨target', _ | e⟩
          · exact ⟨codec, data, target', rfl, rfl, hu⟩
          · simp [hc, hb, hu] at h
    · rintro ⟨codec, data, target', hc, hb, hu⟩
      simp [http.DefaultRequestDecoder, hc, hb, hu]
  · intro e hc
    simp [http.DefaultRequestDecoder, hc]
  · intro codec e hc hb
    simp [http.DefaultRequestDecoder, hc, hb, DataLoss]
  · intro codec data target' e hc hb hu
    simp [http.DefaultRequestDecoder, hc, hb, hu, InvalidArgument]

/-- C11 at four requests: one that decodes, one whose content type has no
codec and whose body cannot be read, one whose body cannot be read, and one
whose body the codec refuses. -/
theorem http_request_decoder_outcomes_witness :
    http.DefaultRequestDecoder env .nil (requestWith "application/text" (.ok [88])) =
      (.str "X", none) ∧
    http.DefaultRequestDecoder env .nil
        (requestWith "image/png" (.error (.other (.plain "unexpected EOF")))) =
      (.nil, some (.status (InvalidArgument "UnknownCodec" "image/png"))) ∧
    http.DefaultRequestDecoder env .nil
        (requestWith "application/text" (.error (.other (.plain "unexpected EOF")))) =
      (.nil, some (.status { Code := 15, Reason := "DataLoss", Message := "unexpected EOF" })) ∧
    http.DefaultRequestDecoder strictEnv .nil (requestWith "application/text" (.ok [])) =
      (.nil, some (.status
        { Code := 3, Reason := "CodecUnmarshal", Message := "strict: empty input" })) :=
  ⟨Prod.ext rfl ((http_request_decoder_outcomes env .nil
      (requestWith "application/text" (.ok [88]))).1.mpr ⟨textCodec, [88], .str "X", rfl, rfl, rfl⟩),
   (http_request_decoder_outcomes env .nil
      (requestWith "image/png" (.error (.other (.plain "unexpected EOF"))))).2.1 _ rfl,
   ((http_request_decoder_outcomes env .nil
      (requestWith "application/text" (.error (.other (.plain "unexpected EOF"))))).2.2.1
      textCodec _ rfl rfl).1,
   ((http_request_decoder_outcomes strictEnv .nil
      (requestWith "application/text" (.ok []))).2.2.2 strictCodec [] .nil _ rfl rfl rfl).1⟩

end http_request_decoder

section inbound_context

open middleware sample

/-- Layers put on under other keys do not change what `transport.FromContext`
reads. -/
theorem transport.FromContext_other_layers (layers : List (String × Value)) (ctx : Context) :
    transport.FromContext (layers.map (fun kv => CtxEntry.other kv.1 kv.2) ++ ctx) =
      transport.FromContext ctx := by
  induction layers with
  | nil => rfl
  | cons kv layers ih => simpa [transport.FromContext] using ih

/-- Layers put on under other keys do not change what the HTTP `FromContext`
reads. -/
theorem http.ServerInfo_FromContext_other_layers (layers : List (String × Value)) (ctx : Context) :
    http.FromContext (layers.map (fun kv => CtxEntry.other kv.1 kv.2) ++ ctx) =
      http.FromContext ctx := by
  induction layers with
  | nil => rfl
  | cons kv layers ih => simpa [http.FromContext] using ih

/-- The context of a request made by `WithContext` is the one given. -/
theorem request_context_withContext (r : HttpRequest) (c : Context) :
    (r.WithContext c).Context = c := by
  cases r; rfl

/-- Only the last `WithContext` counts. -/
theorem request_withContext_withContext (r : HttpRequest) (c c' : Context) :
    (r.WithContext c).WithContext c' = r.WithContext c' := by
  cases r; rfl

/-- A route handler invokes the composed handler with the context of the request
it is given: it runs as the route handler without middleware whose terminal
handler is the composed handler at that context. -/
theorem http.Server.routeHandler_context {σ : Type} (s : http.Server σ) (srv : Value)
    (md : http.MethodDesc σ) (q : HttpRequest) :
    s.routeHandler srv md q =
      ({ s with globalMiddleware := none, serviceMiddleware := fun _ => none } :
        http.Server σ).routeHandler srv
        { md with Handler := (fun _ _ r => s.handler srv md r q.Context r) } q := by
  funext w
  simp [http.Server.routeHandler, http.Server.handler, http.Server.recovered]

/-- C12. The context with which the gRPC interceptor invokes the composed
handler, hence its outermost middleware, carries the transport kind "GRPC"; the
context with which a route handler reached through `ServeHTTP` invokes the
composed handler carries the transport kind "HTTP" and the ServerInfo with the
request and the response writer given to `ServeHTTP`. Attaching the protocol
metadata does not hide the transport kind, and a context on which neither was
attached gives not-present. -/
theorem inbound_context_carries_transport {σ : Type} (ctx : Context) (info : grpc.UnaryServerInfo)
    (req : HttpRequest) (res : Nat) (layers : List (String × Value)) :
    transport.FromContext
        (grpc.NewContext (transport.NewContext ctx { Kind := "GRPC" })
          { Server := info.Server, FullMethod := info.FullMethod }) = ({ Kind := "GRPC" }, true) ∧
    (∀ (s : grpc.Server σ) (r : Value) (handler : grpc.UnaryHandler σ),
      s.UnaryInterceptor ctx r info handler =
        ({ s with globalMiddleware := none, serviceMiddleware := fun _ => none } :
          grpc.Server σ).UnaryInterceptor ctx r info
          (fun _ r => s.handler info handler
            (grpc.NewContext (transport.NewContext ctx { Kind := "GRPC" })
              { Server := info.Server, FullMethod := info.FullMethod }) r)) ∧
    transport.FromContext
        (layers.map (fun kv => CtxEntry.other kv.1 kv.2) ++
          http.NewContext (transport.NewContext req.Context { Kind := "HTTP" })
            { Request := req, Response := res }) = ({ Kind := "HTTP" }, true) ∧
    http.FromContext
        (layers.map (fun kv => CtxEntry.other kv.1 kv.2) ++
          http.NewContext (transport.NewContext req.Context { Kind := "HTTP" })
            { Request := req, Response := res }) = some { Request := req, Response := res } ∧
    (∀ (mux : http.Mux σ) (s : http.Server σ) (srv : Value) (md : http.MethodDesc σ) (w : σ),
      mux.matchRoute s.router
          (req.WithContext (http.NewContext (transport.NewContext req.Context { Kind := "HTTP" })
            { Request := req, Response := res })) = some { route := .method srv md, layers := layers } →
      s.ServeHTTP mux res req w =
        ({ s with globalMiddleware := none, serviceMiddleware := fun _ => none } :
          http.Server σ).routeHandler srv
          { md with Handler := (fun _ _ r =>
              s.handler srv md r
                (layers.map (fun kv => CtxEntry.other kv.1 kv.2) ++
                  http.NewContext (transport.NewContext req.Context { Kind := "HTTP" })
                    { Request := req, Response := res }) r) }
          (req.WithContext
            (layers.map (fun kv => CtxEntry.other kv.1 kv.2) ++
              http.NewContext (transport.NewContext req.Context { Kind := "HTTP" })
                { Request := req, Response := res })) w) ∧
    (∀ (c : Context) (tr : transport.Transport) (gi : grpc.ServerInfo) (hi : http.ServerInfo),
      transport.FromContext (grpc.NewContext (transport.NewContext c tr) gi) = (tr, true) ∧
      transport.FromContext (http.NewContext (transport.NewContext c tr) hi) = (tr, true)) ∧
    (∀ others : List (String × Value),
      transport.FromContext (others.map (fun kv => CtxEntry.other kv.1 kv.2)) = ({ Kind := "" }, false) ∧
      http.FromContext (others.map (fun kv => CtxEntry.other kv.1 kv.2)) = none) := by
  refine ⟨rfl, ?_, ?_, ?_, ?_, fun _ _ _ _ => ⟨rfl, rfl⟩, ?_⟩
  · intro s r handler
    funext w
    simp [grpc.Server.UnaryInterceptor, grpc.Server.handler, grpc.Server.recovered]
  · rw [transport.FromContext_other_layers]; rfl
  · rw [http.ServerInfo_FromContext_other_layers]; rfl
  · intro mux s srv md w hm
    simp only [http.Server.ServeHTTP, hm, http.RouteMatch.context, http.Server.serveRoute,
      request_context_withContext, request_withContext_withContext]
    rw [http.Server.routeHandler_context]
    simp only [request_context_withContext]
  · intro others
    have h1 := transport.FromContext_other_layers others []
    have h2 := http.ServerInfo_FromContext_other_layers others []
    simp only [List.append_nil] at h1 h2
    exact ⟨h1, h2⟩

end inbound_context

section inbound_context_witness

open middleware sample

/-- C12 at concrete servers whose middlewares record the transport kind they
find in their context: on gRPC both the global and the per-service middleware
find "GRPC"; on HTTP, through `ServeHTTP` and a router that adds a layer of its
own, the global middleware finds "HTTP". -/
theorem inbound_context_carries_transport_witness :
    (grpcServer (some (probe kindOf)) (some (probe kindOf))).UnaryInterceptor [] (.str "q") info
        terminal [] =
      (.ret (.str "q", none), ["GRPC present", "GRPC present", "terminal"]) ∧
    ((httpServer (some (probe kindOf)) none).RegisterService
        { ServiceName := "svc", Methods := [method] } (.str "svc")).ServeHTTP firstRoute 7
        request [] =
      ⟨.ret (), ["HTTP present", "terminal", "response encoded"],
        [.responseEncoder (.str "reply")]⟩ ∧
    http.FromContext
        ([("vars", Value.nil)].map (fun kv => CtxEntry.other kv.1 kv.2) ++
          http.NewContext (transport.NewContext request.Context { Kind := "HTTP" })
            { Request := request, Response := 7 }) =
      some { Request := request, Response := 7 } :=
  ⟨(congrFun ((@inbound_context_carries_transport (List String) [] info request 7
      [("vars", .nil)]).2.1 (grpcServer (some (probe kindOf)) (some (probe kindOf))) (.str "q")
      terminal) []).trans rfl,
   ((@inbound_context_carries_transport (List String) [] info request 7
      [("vars", .nil)]).2.2.2.2.1 firstRoute
      ((httpServer (some (probe kindOf)) none).RegisterService
        { ServiceName := "svc", Methods := [method] } (.str "svc"))
      (.str "svc") method [] rfl).trans rfl,
   (@inbound_context_carries_transport (List String) [] info request 7
      [("vars", .nil)]).2.2.2.1⟩

end inbound_context_witness

section server_options

open sample

/-- C13 at its failing input. The option `ServerRequestDecoder(fn)` assigns `fn`
to the field `errorEncoder` and leaves `requestDecoder`, like every other field,
as it was: on a server whose error encoder leaves the mark "error encoded", the
error encoder after the option is `fn`, and a server made by `NewServer` with
that option still has the default request decoder. -/
theorem server_request_decoder_sets_error_encoder :
    (∀ (σ : Type) (s : http.Server σ) (fn : http.ServerEncodeErrorFunc σ),
      (http.ServerRequestDecoder fn s).errorEncoder = fn ∧
      (http.ServerRequestDecoder fn s).requestDecoder = s.requestDecoder ∧
      (http.ServerRequestDecoder fn s).responseEncoder = s.responseEncoder ∧
      (http.ServerRequestDecoder fn s).recoveryHandler = s.recoveryHandler ∧
      (http.ServerRequestDecoder fn s).globalMiddleware = s.globalMiddleware ∧
      (http.ServerRequestDecoder fn s).serviceMiddleware = s.serviceMiddleware ∧
      (http.ServerRequestDecoder fn s).router = s.router ∧
      http.ServerRequestDecoder fn s = http.ServerErrorEncoder fn s) ∧
    (httpServer none none).errorEncoder none request [] = (.ret (), ["error encoded"]) ∧
    (http.ServerRequestDecoder markingEncoder (httpServer none none)).errorEncoder none request []
      = (.ret (), ["fn called"]) ∧
    (∀ (env : http.Env) (fn : http.ServerEncodeErrorFunc http.ResponseWriter),
      (http.NewServer env [http.ServerRequestDecoder fn]).errorEncoder = fn ∧
      (http.NewServer env [http.ServerRequestDecoder fn]).requestDecoder =
        (http.NewServer env []).requestDecoder) :=
  ⟨fun _ _ _ => ⟨rfl, rfl, rfl, rfl, rfl, rfl, rfl, rfl⟩, rfl, rfl, fun _ _ => ⟨rfl, rfl⟩⟩

end server_options
